import Mathlib

/-!
Verification of the swagger-to-csv schema-flattening engine.

The source programs walk an already-parsed JSON document tree.  We embed the
parsed tree as the inductive type `Json` below, with Python semantics made
explicit: dictionary iteration follows insertion order (association lists),
truthiness follows Python rules, and operations that raise in Python
(attribute access on a non-dict, `len` of a non-sized value, iteration of a
non-iterable, indexing) are modelled in the `Except String` monad.
-/

inductive Json where
| null : Json
| bool (b : Bool) : Json
| num (n : Int) : Json
| str (s : String) : Json
| arr (elems : List Json) : Json
| obj (entries : List (String × Json)) : Json

/-- Python truthiness of a parsed JSON value. -/
def Json.truthy : Json → Bool
| .null => false
| .bool b => b
| .num n => n != 0
| .str s => s != ""
| .arr xs => !xs.isEmpty
| .obj kvs => !kvs.isEmpty

def Json.isObj : Json → Bool
| .obj _ => true
| _ => false

/-- First-match lookup in a dict, in insertion order (Python dicts have unique
keys, so first-match agrees with dict lookup). -/
def lookupKey (kvs : List (String × Json)) (k : String) : Option Json :=
(kvs.find? (fun e => e.1 == k)).map (fun e => e.2)

/-- `d.get(key, default)` on a known dict: the default is used only when the
key is absent; a stored JSON null is returned as is. -/
def getD (kvs : List (String × Json)) (k : String) (dflt : Json) : Json :=
(lookupKey kvs k).getD dflt

def hasKey (kvs : List (String × Json)) (k : String) : Bool :=
(lookupKey kvs k).isSome

/-- `x.get(key, default)` where `x` may not be a dict: AttributeError otherwise. -/
def pyGet (j : Json) (k : String) (dflt : Json) : Except String Json :=
match j with
| .obj kvs => .ok (getD kvs k dflt)
| _ => .error "AttributeError"

/-- `x.items()`: AttributeError when `x` is not a dict. -/
def pyItems (j : Json) : Except String (List (String × Json)) :=
match j with
| .obj kvs => .ok kvs
| _ => .error "AttributeError"

/-- Python iteration (`for v in x`, `list.extend(x)`): lists yield elements,
strings yield one-character strings, dicts yield their keys; anything else
raises TypeError. -/
def pyIter (j : Json) : Except String (List Json) :=
match j with
| .arr xs => .ok xs
| .str s => .ok (s.toList.map (fun c => Json.str (String.singleton c)))
| .obj kvs => .ok (kvs.map (fun e => Json.str e.1))
| _ => .error "TypeError"

/-- `len(x)`: defined for lists, strings and dicts; TypeError otherwise. -/
def pyLen (j : Json) : Except String Nat :=
match j with
| .arr xs => .ok xs.length
| .str s => .ok s.length
| .obj kvs => .ok kvs.length
| _ => .error "TypeError"

/-- `x[0]`. -/
def pyIndex0 (j : Json) : Except String Json :=
match j with
| .arr (x :: _) => .ok x
| .arr [] => .error "IndexError"
| .str s =>
  match s.toList with
  | c :: _ => .ok (Json.str (String.singleton c))
  | [] => .error "IndexError"
| .obj _ => .error "KeyError"
| _ => .error "TypeError"

/-- `a or b`. -/
def pyOr (a b : Json) : Json :=
if a.truthy then a else b

/-- `s.lower()` on the ASCII method keys compared by the sources, defined
over the character list so that it evaluates by reduction. -/
def strLower (s : String) : String :=
⟨s.data.map Char.toLower⟩

/-- `s.upper()` of the same kind. -/
def strUpper (s : String) : String :=
⟨s.data.map Char.toUpper⟩

mutual
/-- Python `repr` of a parsed JSON value (string escaping simplified; no claim
depends on the rendering of nested containers). -/
def pyRepr : Json → String
| Json.null => "None"
| Json.bool true => "True"
| Json.bool false => "False"
| Json.num n => toString n
| Json.str s => "\x27" ++ s ++ "\x27"
| Json.arr xs => "[" ++ String.intercalate ", " (pyReprList xs) ++ "]"
| Json.obj kvs => "\x7b" ++ String.intercalate ", " (pyReprEntries kvs) ++ "\x7d"

def pyReprList : List Json → List String
| [] => []
| x :: rest => pyRepr x :: pyReprList rest

def pyReprEntries : List (String × Json) → List String
| [] => []
| e :: rest => ("\x27" ++ e.1 ++ "\x27: " ++ pyRepr e.2) :: pyReprEntries rest
end

/-- Python `str` of a parsed JSON value: differs from `repr` only on strings. -/
def pyStr : Json → String
| Json.str s => s
| j => pyRepr j

mutual
/-- `json.dumps` with default separators (string escaping simplified). -/
def pyDumps : Json → String
| Json.null => "null"
| Json.bool true => "true"
| Json.bool false => "false"
| Json.num n => toString n
| Json.str s => "\"" ++ s ++ "\""
| Json.arr xs => "[" ++ String.intercalate ", " (pyDumpsList xs) ++ "]"
| Json.obj kvs => "\x7b" ++ String.intercalate ", " (pyDumpsEntries kvs) ++ "\x7d"

def pyDumpsList : List Json → List String
| [] => []
| x :: rest => pyDumps x :: pyDumpsList rest

def pyDumpsEntries : List (String × Json) → List String
| [] => []
| e :: rest => ("\"" ++ e.1 ++ "\": " ++ pyDumps e.2) :: pyDumpsEntries rest
end

/-- Monadic map over a list in the `Except String` monad, used as the
declarative document-order form of the extraction loops. -/
def mapE {α β : Type} (f : α → Except String β) : List α → Except String (List β)
| [] => .ok []
| a :: rest => do
  let b ← f a
  let bs ← mapE f rest
  pure (b :: bs)

/-! ## openAi_to_Excel.py -/

/-- `list_http_methods()` of openAi_to_Excel.py (membership is all that is
ever used of the Python set). -/
def list_http_methods : List String :=
["get", "put", "post", "delete", "options", "head", "patch"]

/-- `join_or_none(values)`: `None` for falsy input, else the ", "-joined
`str` forms of the iterated elements. -/
def join_or_none (j : Json) : Except String (Option String) :=
if j.truthy then (pyIter j).map (fun xs => some (String.intercalate ", " (xs.map pyStr)))
else .ok none

/-- `safe_get(d, key)` with the default `None`: equivalent to `d.get(key)`
because a stored null and the null default are indistinguishable. -/
def safe_get (j : Json) (k : String) : Except String Json :=
pyGet j k Json.null

/-- `', '.join(scopes)` for an arbitrary value of `scopes`. -/
def pyJoinStrs (j : Json) : Except String String :=
match j with
| Json.str s => .ok (String.intercalate ", " (s.toList.map String.singleton))
| Json.arr xs =>
  (mapE (fun x => match x with
    | Json.str s => Except.ok s
    | _ => Except.error "TypeError") xs).map (String.intercalate ", ")
| Json.obj kvs => .ok (String.intercalate ", " (kvs.map (fun e => e.1)))
| _ => .error "TypeError"

/-- Inner loop of the security flattener: one requirement object
(scheme ↦ scopes). -/
def flattenEntries : List (String × Json) → Except String (List String)
| [] => .ok []
| e :: rest => do
  let tok ← if e.2.truthy then (pyJoinStrs e.2).map (fun s => e.1 ++ "(" ++ s ++ ")")
            else pure e.1
  let ts ← flattenEntries rest
  pure (tok :: ts)

/-- `for sec in ...` loop of the security flattener. -/
def flattenSecList : List Json → Except String (List String)
| [] => .ok []
| sec :: rest => do
  let es ← pyItems sec
  let ts ← flattenEntries es
  let ts2 ← flattenSecList rest
  pure (ts ++ ts2)

/-- Lines 72-78 of openAi_to_Excel.py: flatten a security requirement list
into `scheme(scope1, scope2)` / bare `scheme` tokens. -/
def flatten_security (security : Json) : Except String (List String) := do
  let secs ← if security.truthy then pyIter security else .ok []
  flattenSecList secs

/-- The full rendering of the `security` column: flatten, then
`join_or_none` of the resulting list of strings. -/
def render_security (j : Json) : Except String (Option String) := do
  let fl ← flatten_security j
  join_or_none (Json.arr (fl.map Json.str))

/-- `build_full_url_template(schemes, host, base_path, path)`. -/
def build_full_url_template (schemes host base_path : Json) (path : String) :
    Except String (Option String) :=
if !host.truthy then .ok none
else do
  let scheme ← if schemes.truthy then pyIndex0 schemes else pure (Json.str "https")
  let bp := pyOr base_path (Json.str "")
  pure (some (pyStr scheme ++ "://" ++ pyStr host ++ pyStr bp ++ path))

/-- `tags[0] if tags else None` (lines 64-65, 123-124, 169-170): the
`api_group` value of an operation. -/
def api_group_of (tags : Json) : Except String (Option Json) :=
if tags.truthy then (pyIndex0 tags).map some else pure none

/-- One row of the endpoints relation (columns in source dict order). -/
structure EndpointRow where
  api_group : Option Json
  tags : Option String
  operationId : Json
  summary : Json
  description : Json
  deprecated : Json
  method : String
  path : String
  full_url_template : Option String
  consumes : Option String
  produces : Option String
  parameters_count : Nat
  responses_count : Nat
  security : Option String

/-- Body of the operation loop of `extract_endpoints` (lines 60-95),
building one endpoints row; evaluation order of the fallible steps follows
the Python source. -/
def mkEndpointRow (sw : List (String × Json)) (path : String)
    (path_level_params : Json) (method : String) (op : List (String × Json)) :
    Except String EndpointRow := do
  let tags := getD op "tags" (Json.arr [])
  let api_group ← api_group_of tags
  let consumes := getD op "consumes" (getD sw "consumes" Json.null)
  let produces := getD op "produces" (getD sw "produces" Json.null)
  let security := getD op "security" (getD sw "security" (Json.arr []))
  let security_flat ← flatten_security security
  let tags_cell ← join_or_none tags
  let full_url ← build_full_url_template (getD sw "schemes" (Json.arr []))
    (getD sw "host" Json.null) (getD sw "basePath" Json.null) path
  let consumes_cell ← join_or_none consumes
  let produces_cell ← join_or_none produces
  let pcount_op ← pyLen (getD op "parameters" (Json.arr []))
  let pcount_path ← pyLen path_level_params
  let rcount ← pyLen (getD op "responses" (Json.obj []))
  let security_cell ← join_or_none (Json.arr (security_flat.map Json.str))
  pure {
    api_group := api_group,
    tags := tags_cell,
    operationId := getD op "operationId" Json.null,
    summary := getD op "summary" Json.null,
    description := getD op "description" Json.null,
    deprecated := getD op "deprecated" (Json.bool false),
    method := (strUpper method),
    path := path,
    full_url_template := full_url,
    consumes := consumes_cell,
    produces := produces_cell,
    parameters_count := pcount_op + pcount_path,
    responses_count := rcount,
    security := security_cell }

/-- `for method, op in path_item.items()` of `extract_endpoints`: keys that
are not HTTP verbs and operation slots that are not dicts are skipped. -/
def opLoopE (sw : List (String × Json)) (path : String) (path_level_params : Json) :
    List (String × Json) → Except String (List EndpointRow)
| [] => .ok []
| e :: rest =>
  match e.2 with
  | Json.obj opkvs =>
    if list_http_methods.contains (strLower e.1) then do
      let r ← mkEndpointRow sw path path_level_params e.1 opkvs
      let rs ← opLoopE sw path path_level_params rest
      pure (r :: rs)
    else opLoopE sw path path_level_params rest
  | _ => opLoopE sw path path_level_params rest

/-- `for path, path_item in sw.get("paths", {}).items()` of
`extract_endpoints`: non-dict path items are skipped. -/
def pathLoopE (sw : List (String × Json)) :
    List (String × Json) → Except String (List EndpointRow)
| [] => .ok []
| e :: rest =>
  match e.2 with
  | Json.obj pk => do
    let rs ← opLoopE sw e.1 (getD pk "parameters" (Json.arr [])) pk
    let more ← pathLoopE sw rest
    pure (rs ++ more)
  | _ => pathLoopE sw rest

/-- `extract_endpoints(sw)`. -/
def extract_endpoints (sw : Json) : Except String (List EndpointRow) :=
match sw with
| Json.obj kvs => do
  let pes ← pyItems (getD kvs "paths" (Json.obj []))
  pathLoopE kvs pes
| _ => .error "AttributeError"

/-- One row of the parameters relation. -/
structure ParamRow where
  api_group : Option Json
  operationId : Json
  method : String
  path : String
  name : Json
  param_in : Json
  description : Json
  required : Json
  type : Json
  format : Json
  collectionFormat : Json
  items_type : Json
  items_format : Json
  enum : Option String
  ref : Json
  schema_type : Json

/-- Body of the `for p in params` loop of `extract_parameters`
(lines 132-154): a parameter that is not a dict raises AttributeError. -/
def mkParamRow (api_group : Option Json) (operationId : Json)
    (method path : String) (p : Json) : Except String ParamRow :=
match p with
| Json.obj pk => do
  let schema := getD pk "schema" Json.null
  let items := getD pk "items" Json.null
  let enum_vals := getD pk "enum" Json.null
  let items_type ← safe_get (pyOr items (Json.obj [])) "type"
  let items_format ← safe_get (pyOr items (Json.obj [])) "format"
  let enum_cell ← join_or_none enum_vals
  let ref_cell ← safe_get (pyOr schema (Json.obj [])) "$ref"
  let schema_type ← safe_get (pyOr schema (Json.obj [])) "type"
  pure {
    api_group := api_group,
    operationId := operationId,
    method := method,
    path := path,
    name := getD pk "name" Json.null,
    param_in := getD pk "in" Json.null,
    description := getD pk "description" Json.null,
    required := getD pk "required" (Json.bool false),
    type := getD pk "type" Json.null,
    format := getD pk "format" Json.null,
    collectionFormat := getD pk "collectionFormat" Json.null,
    items_type := items_type,
    items_format := items_format,
    enum := enum_cell,
    ref := ref_cell,
    schema_type := schema_type }
| _ => .error "AttributeError"

def paramRowsLoop (api_group : Option Json) (operationId : Json)
    (method path : String) : List Json → Except String (List ParamRow)
| [] => .ok []
| p :: rest => do
  let r ← mkParamRow api_group operationId method path p
  let rs ← paramRowsLoop api_group operationId method path rest
  pure (r :: rs)

/-- Body of the operation loop of `extract_parameters` (lines 119-154):
concatenate path-level and operation-level parameters, then emit one row per
parameter. -/
def opParamRows (path : String) (path_level_params : Json) (method : String)
    (op : List (String × Json)) : Except String (List ParamRow) := do
  let tags := getD op "tags" (Json.arr [])
  let api_group ← api_group_of tags
  let operationId := getD op "operationId" Json.null
  let pl ← pyIter path_level_params
  let ol ← pyIter (getD op "parameters" (Json.arr []))
  paramRowsLoop api_group operationId (strUpper method) path (pl ++ ol)

def opLoopP (path : String) (path_level_params : Json) :
    List (String × Json) → Except String (List ParamRow)
| [] => .ok []
| e :: rest =>
  match e.2 with
  | Json.obj opkvs =>
    if list_http_methods.contains (strLower e.1) then do
      let rs ← opParamRows path path_level_params e.1 opkvs
      let more ← opLoopP path path_level_params rest
      pure (rs ++ more)
    else opLoopP path path_level_params rest
  | _ => opLoopP path path_level_params rest

def pathLoopP : List (String × Json) → Except String (List ParamRow)
| [] => .ok []
| e :: rest =>
  match e.2 with
  | Json.obj pk => do
    let rs ← opLoopP e.1 (getD pk "parameters" (Json.arr [])) pk
    let more ← pathLoopP rest
    pure (rs ++ more)
  | _ => pathLoopP rest

/-- `extract_parameters(sw)`. -/
def extract_parameters (sw : Json) : Except String (List ParamRow) :=
match sw with
| Json.obj kvs => do
  let pes ← pyItems (getD kvs "paths" (Json.obj []))
  pathLoopP pes
| _ => .error "AttributeError"

/-- One row of the responses relation. -/
structure RespRow where
  api_group : Option Json
  operationId : Json
  method : String
  path : String
  status_code : String
  description : Json
  schema_type : Json
  schema_format : Json
  schema_ref : Json
  schema_items_type : Json
  schema_items_ref : Json

/-- Body of the `for code, resp in responses.items()` loop of
`extract_responses` (lines 174-190), for a response that is a dict. -/
def mkRespRow (api_group : Option Json) (operationId : Json)
    (method path code : String) (resp : List (String × Json)) :
    Except String RespRow := do
  let schema := pyOr (getD resp "schema" Json.null) (Json.obj [])
  let schema_type ← pyGet schema "type" Json.null
  let schema_format ← pyGet schema "format" Json.null
  let schema_ref ← pyGet schema "$ref" Json.null
  let sitems ← pyGet schema "items" (Json.obj [])
  let schema_items_type ← safe_get sitems "type"
  let sitems2 ← pyGet schema "items" (Json.obj [])
  let schema_items_ref ← safe_get sitems2 "$ref"
  pure {
    api_group := api_group,
    operationId := operationId,
    method := method,
    path := path,
    status_code := code,
    description := getD resp "description" Json.null,
    schema_type := schema_type,
    schema_format := schema_format,
    schema_ref := schema_ref,
    schema_items_type := schema_items_type,
    schema_items_ref := schema_items_ref }

def respLoop (api_group : Option Json) (operationId : Json) (method path : String) :
    List (String × Json) → Except String (List RespRow)
| [] => .ok []
| e :: rest =>
  match e.2 with
  | Json.obj rk => do
    let r ← mkRespRow api_group operationId method path e.1 rk
    let rs ← respLoop api_group operationId method path rest
    pure (r :: rs)
  | _ => respLoop api_group operationId method path rest

/-- Body of the operation loop of `extract_responses` (lines 165-190). -/
def opRespRows (path method : String) (op : List (String × Json)) :
    Except String (List RespRow) := do
  let tags := getD op "tags" (Json.arr [])
  let api_group ← api_group_of tags
  let operationId := getD op "operationId" Json.null
  let resps ← pyItems (getD op "responses" (Json.obj []))
  respLoop api_group operationId (strUpper method) path resps

def opLoopR (path : String) : List (String × Json) → Except String (List RespRow)
| [] => .ok []
| e :: rest =>
  match e.2 with
  | Json.obj opkvs =>
    if list_http_methods.contains (strLower e.1) then do
      let rs ← opRespRows path e.1 opkvs
      let more ← opLoopR path rest
      pure (rs ++ more)
    else opLoopR path rest
  | _ => opLoopR path rest

def pathLoopR : List (String × Json) → Except String (List RespRow)
| [] => .ok []
| e :: rest =>
  match e.2 with
  | Json.obj pk => do
    let rs ← opLoopR e.1 pk
    let more ← pathLoopR rest
    pure (rs ++ more)
  | _ => pathLoopR rest

/-- `extract_responses(sw)`. -/
def extract_responses (sw : Json) : Except String (List RespRow) :=
match sw with
| Json.obj kvs => do
  let pes ← pyItems (getD kvs "paths" (Json.obj []))
  pathLoopR pes
| _ => .error "AttributeError"

/-- One row of the tags relation. -/
structure TagRow where
  name : Json
  description : Json
  externalDocs_description : Json
  externalDocs_url : Json

/-- Body of the `for t in tags` loop of `extract_tags` (lines 197-203):
a tag that is not a dict raises AttributeError. -/
def mkTagRow (t : Json) : Except String TagRow :=
match t with
| Json.obj tk => do
  let ed_desc ← safe_get (getD tk "externalDocs" (Json.obj [])) "description"
  let ed_url ← safe_get (getD tk "externalDocs" (Json.obj [])) "url"
  pure {
    name := getD tk "name" Json.null,
    description := getD tk "description" Json.null,
    externalDocs_description := ed_desc,
    externalDocs_url := ed_url }
| _ => .error "AttributeError"

def tagLoop : List Json → Except String (List TagRow)
| [] => .ok []
| t :: rest => do
  let r ← mkTagRow t
  let rs ← tagLoop rest
  pure (r :: rs)

/-- `extract_tags(sw)`. -/
def extract_tags (sw : Json) : Except String (List TagRow) :=
match sw with
| Json.obj kvs => do
  let ts ← pyIter (getD kvs "tags" (Json.arr []))
  tagLoop ts
| _ => .error "AttributeError"

/-- One row of the securities relation. -/
structure SecRow where
  name : String
  type : Json
  param_in : Json
  name_in_header : Json
  flow : Json
  authorizationUrl : Json
  tokenUrl : Json
  scopes : Option String

/-- Body of the securityDefinitions loop of `extract_securities`
(lines 210-221). -/
def mkSecRow (name : String) (s : Json) : Except String SecRow :=
match s with
| Json.obj sk => do
  let scopes := getD sk "scopes" (Json.obj [])
  let scopeEntries ← pyItems scopes
  let scopes_cell ← join_or_none
    (Json.arr (scopeEntries.map (fun e => Json.str (e.1 ++ ":" ++ pyStr e.2))))
  pure {
    name := name,
    type := getD sk "type" Json.null,
    param_in := getD sk "in" Json.null,
    name_in_header := getD sk "name" Json.null,
    flow := getD sk "flow" Json.null,
    authorizationUrl := getD sk "authorizationUrl" Json.null,
    tokenUrl := getD sk "tokenUrl" Json.null,
    scopes := scopes_cell }
| _ => .error "AttributeError"

def secLoop : List (String × Json) → Except String (List SecRow)
| [] => .ok []
| e :: rest => do
  let r ← mkSecRow e.1 e.2
  let rs ← secLoop rest
  pure (r :: rs)

/-- `extract_securities(sw)`. -/
def extract_securities (sw : Json) : Except String (List SecRow) :=
match sw with
| Json.obj kvs => do
  let entries ← pyItems (pyOr (getD kvs "securityDefinitions" (Json.obj [])) (Json.obj []))
  secLoop entries
| _ => .error "AttributeError"

/-- One row of the models relation. -/
structure ModelRow where
  model_name : String
  type : Json
  xml_name : Json
  description : Json
  required_fields : Option String

/-- One row of the model-properties relation. -/
structure PropRow where
  model_name : String
  property_name : String
  type : Json
  format : Json
  description : Json
  enum : Option String
  items_type : Json
  items_format : Json
  items_ref : Json
  ref : Json
  xml_name : Json
  xml_wrapped : Json
  «example» : Json

/-- Model-row part of the definitions loop (lines 233-241). -/
def mkModelRow (model_name : String) (m : List (String × Json)) :
    Except String ModelRow := do
  let required := getD m "required" (Json.arr [])
  let xml := getD m "xml" (Json.obj [])
  let xml_name ← pyGet xml "name" Json.null
  let required_cell ← join_or_none required
  pure {
    model_name := model_name,
    type := getD m "type" Json.null,
    xml_name := xml_name,
    description := getD m "description" Json.null,
    required_fields := required_cell }

/-- Body of the `for prop_name, prop in props.items()` loop (lines 244-262):
a property that is not a dict raises AttributeError. -/
def mkPropRow (model_name prop_name : String) (p : Json) : Except String PropRow :=
match p with
| Json.obj pk => do
  let items := getD pk "items" Json.null
  let xmlp := getD pk "xml" (Json.obj [])
  let enum_vals := getD pk "enum" Json.null
  let enum_cell ← join_or_none enum_vals
  let items_type ← safe_get (pyOr items (Json.obj [])) "type"
  let items_format ← safe_get (pyOr items (Json.obj [])) "format"
  let items_ref ← safe_get (pyOr items (Json.obj [])) "$ref"
  let xml_name ← pyGet xmlp "name" Json.null
  let xml_wrapped ← safe_get xmlp "wrapped"
  pure {
    model_name := model_name,
    property_name := prop_name,
    type := getD pk "type" Json.null,
    format := getD pk "format" Json.null,
    description := getD pk "description" Json.null,
    enum := enum_cell,
    items_type := items_type,
    items_format := items_format,
    items_ref := items_ref,
    ref := getD pk "$ref" Json.null,
    xml_name := xml_name,
    xml_wrapped := xml_wrapped,
    «example» := getD pk "example" Json.null }
| _ => .error "AttributeError"

def propLoop (model_name : String) : List (String × Json) → Except String (List PropRow)
| [] => .ok []
| e :: rest => do
  let r ← mkPropRow model_name e.1 e.2
  let rs ← propLoop model_name rest
  pure (r :: rs)

/-- `for model_name, model in defs.items()` of
`extract_models_and_properties`: a model that is not a dict raises
AttributeError. -/
def modelLoop : List (String × Json) → Except String (List ModelRow × List PropRow)
| [] => .ok ([], [])
| e :: rest =>
  match e.2 with
  | Json.obj mk => do
    let mr ← mkModelRow e.1 mk
    let pentries ← pyItems (pyOr (getD mk "properties" (Json.obj [])) (Json.obj []))
    let prs ← propLoop e.1 pentries
    let more ← modelLoop rest
    pure (mr :: more.1, prs ++ more.2)
  | _ => .error "AttributeError"

/-- `extract_models_and_properties(sw)`. -/
def extract_models_and_properties (sw : Json) :
    Except String (List ModelRow × List PropRow) :=
match sw with
| Json.obj kvs => do
  let entries ← pyItems (pyOr (getD kvs "definitions" (Json.obj [])) (Json.obj []))
  modelLoop entries
| _ => .error "AttributeError"

/-- The six extractor calls of `export_tables` (lines 270-275), as one pure
function of the parsed document. -/
def extractAllTables (sw : Json) :
    Except String (List EndpointRow) × Except String (List ParamRow) ×
    Except String (List RespRow) × Except String (List TagRow) ×
    Except String (List SecRow) × Except String (List ModelRow × List PropRow) :=
(extract_endpoints sw, extract_parameters sw, extract_responses sw,
 extract_tags sw, extract_securities sw, extract_models_and_properties sw)

/-! ## openapi_to_csv.py -/

/-- `HTTP_METHODS` of openapi_to_csv.py (note: includes "trace"). -/
def HTTP_METHODS : List String :=
["get", "post", "put", "patch", "delete", "options", "head", "trace"]

/-- `join_tags(tags)`. -/
def join_tags (j : Json) : String :=
match j with
| Json.arr xs => String.intercalate "; " (xs.map pyStr)
| _ => if j.truthy then pyStr j else ""

/-- Rendering of one parameter dict inside `collect_params` (lines 32-44). -/
def render_param (pk : List (String × Json)) : String :=
  let name := pyStr (getD pk "name" (Json.str ""))
  let loc := pyStr (getD pk "in" (Json.str ""))
  let star := if (getD pk "required" (Json.bool false)).truthy then "*" else ""
  let typ : Json :=
    match getD pk "schema" Json.null with
    | Json.obj sk => getD sk "type" (Json.str "")
    | _ => if hasKey pk "type" then getD pk "type" (Json.str "") else Json.str ""
  if typ.truthy then name ++ " (" ++ loc ++ ")" ++ star ++ " : " ++ pyStr typ
  else name ++ " (" ++ loc ++ ")" ++ star

/-- The rendering pass of `collect_params` over one collection: parameters
that are not dicts are skipped. -/
def renderColl : List Json → List String
| [] => []
| p :: rest =>
  match p with
  | Json.obj pk => render_param pk :: renderColl rest
  | _ => renderColl rest

/-- The `seen`/`uniq` de-duplication loop of `collect_params` (lines 46-51);
the Python set is modelled by a list used only through membership. -/
def dedup_loop : List String → List String → List String → List String
| [], _, uniq => uniq
| x :: rest, seen, uniq =>
  if seen.contains x then dedup_loop rest seen uniq
  else dedup_loop rest (x :: seen) (uniq ++ [x])

/-- `(coll or [])` iterated: the per-side guard of `collect_params`
(line 28). -/
def iter_or_nil (j : Json) : Except String (List Json) :=
if j.truthy then pyIter j else pure []

/-- `collect_params(op_level, path_level)` up to the final `"; ".join`:
the de-duplicated list of rendered parameter descriptions. -/
def collect_params_list (op_level path_level : Json) : Except String (List String) := do
  let c1 ← iter_or_nil path_level
  let c2 ← iter_or_nil op_level
  pure (dedup_loop (renderColl c1 ++ renderColl c2) [] [])

/-- `collect_params(op_level, path_level)`. -/
def collect_params (op_level path_level : Json) : Except String String :=
(collect_params_list op_level path_level).map (String.intercalate "; ")

/-- `get_request_body(op)`. -/
def get_request_body (op : List (String × Json)) : String :=
match getD op "requestBody" Json.null with
| Json.obj rb =>
  let req := if (getD rb "required" Json.null).truthy then "required" else "optional"
  match getD rb "content" (Json.obj []) with
  | Json.obj ckvs =>
    if !ckvs.isEmpty then
      let media := String.intercalate ", " ((ckvs.map (fun e => e.1)).take 5)
      if media != "" then req ++ " (" ++ media ++ ")" else req
    else req
  | _ => req
| _ => ""

/-- `get_responses(op)`. -/
def get_responses (op : List (String × Json)) : String :=
match getD op "responses" (Json.obj []) with
| Json.obj rkvs => String.intercalate ", " (rkvs.map (fun e => e.1))
| _ => ""

/-- One row of the single-CSV exporter (columns in source order). -/
structure CsvRow where
  api_group_tags : String
  method : String
  path : String
  summary : Json
  description : Json
  operationId : Json
  deprecated : String
  auth : String
  parameters : String
  requestBody : String
  responses : String

/-- Body of the operation loop of openapi_to_csv.py `main` (lines 99-125). -/
def mkCsvRow (path : String) (path_params : List Json) (method : String)
    (op : List (String × Json)) : Except String CsvRow := do
  let tags := pyOr (getD op "tags" Json.null) (Json.arr [])
  let summary := pyOr (getD op "summary" Json.null) (Json.str "")
  let description := pyOr (getD op "description" Json.null) (Json.str "")
  let operationId := pyOr (getD op "operationId" Json.null) (Json.str "")
  let deprecated := (getD op "deprecated" (Json.bool false)).truthy
  let security := getD op "security" (Json.arr [])
  let params_joined ← collect_params (getD op "parameters" Json.null) (Json.arr path_params)
  pure {
    api_group_tags := join_tags tags,
    method := (strUpper method),
    path := path,
    summary := summary,
    description := description,
    operationId := operationId,
    deprecated := if deprecated then "true" else "false",
    auth := if security.truthy then pyDumps security else "",
    parameters := params_joined,
    requestBody := get_request_body op,
    responses := get_responses op }

def csvOpLoop (path : String) (path_params : List Json) :
    List (String × Json) → Except String (List CsvRow)
| [] => .ok []
| e :: rest =>
  if HTTP_METHODS.contains (strLower e.1) then
    match e.2 with
    | Json.obj opkvs => do
      let r ← mkCsvRow path path_params e.1 opkvs
      let rs ← csvOpLoop path path_params rest
      pure (r :: rs)
    | _ => csvOpLoop path path_params rest
  else csvOpLoop path path_params rest

/-- `path_params` of `main` (line 98): the path-level `parameters` value when
it is a list, else the empty list. -/
def csvPathParams (pk : List (String × Json)) : List Json :=
match getD pk "parameters" Json.null with
| Json.arr xs => xs
| _ => []

def csvPathLoop : List (String × Json) → Except String (List CsvRow)
| [] => .ok []
| e :: rest =>
  match e.2 with
  | Json.obj pk => do
    let rs ← csvOpLoop e.1 (csvPathParams pk) pk
    let more ← csvPathLoop rest
    pure (rs ++ more)
  | _ => csvPathLoop rest

/-- Strict lexicographic comparison of strings by code points, exactly
Python's `<` on strings. -/
def strLtList : List Char → List Char → Bool
| [], [] => false
| [], _ :: _ => true
| _ :: _, [] => false
| a :: as, b :: bs =>
  if a.toNat < b.toNat then true
  else if b.toNat < a.toNat then false
  else strLtList as bs

def strLt (a b : String) : Bool :=
strLtList a.data b.data

/-- The lexicographic-by-(tags, path, method) comparison used by the
`rows.sort` call of `main` (line 129); Python compares strings by code
points. -/
def keyLe (a b : CsvRow) : Bool :=
strLt a.api_group_tags b.api_group_tags ||
  (a.api_group_tags == b.api_group_tags &&
    (strLt a.path b.path ||
      (a.path == b.path && (strLt a.method b.method || a.method == b.method))))

def insertRow (x : CsvRow) : List CsvRow → List CsvRow
| [] => [x]
| y :: ys => if keyLe y x then y :: insertRow x ys else x :: y :: ys

/-- A stable ascending sort by `keyLe`; Python's `list.sort` is a stable
ascending sort by the same total preorder, and a stable sort by a total
preorder has a unique result, so both produce the same list. -/
def sortRows (l : List CsvRow) : List CsvRow :=
l.foldl (fun acc x => insertRow x acc) []

/-- Row construction of `main` in document order, before the sort. -/
def openapi_rows_unsorted (spec : Json) : Except String (List CsvRow) :=
match spec with
| Json.obj kvs => do
  let pes ← pyItems (getD kvs "paths" (Json.obj []))
  csvPathLoop pes
| _ => .error "AttributeError"

/-- The row list `main` writes to the CSV: rows built in document order,
then sorted by (tags rendering, path, upper-cased method). -/
def openapi_rows (spec : Json) : Except String (List CsvRow) :=
match spec with
| Json.obj kvs => do
  let pes ← pyItems (getD kvs "paths" (Json.obj []))
  let rows ← csvPathLoop pes
  pure (sortRows rows)
| _ => .error "AttributeError"

/-! ## Declarative document-order forms and specification-side definitions -/

/-- The operation entries of a path item admitted by the shared predicate of
the three operation-driven extractors: the key is an HTTP verb
case-insensitively and the value is a dict. -/
def admittedOps (pk : List (String × Json)) : List (String × List (String × Json)) :=
pk.filterMap (fun e =>
  match e.2 with
  | Json.obj opkvs =>
    if list_http_methods.contains (strLower e.1) then some (e.1, opkvs) else none
  | _ => none)

/-- All admitted operations of a paths object, in document order, each paired
with its path, its path-level parameter value and its method key. -/
def docOps (pes : List (String × Json)) :
    List (String × Json × String × List (String × Json)) :=
pes.flatMap (fun pe =>
  match pe.2 with
  | Json.obj pk =>
    (admittedOps pk).map (fun mo => (pe.1, getD pk "parameters" (Json.arr []), mo.1, mo.2))
  | _ => [])

/-- Declarative document-order form of `extract_endpoints`: one row per
admitted operation, paths then operations in document order. -/
def extract_endpoints_spec (sw : Json) : Except String (List EndpointRow) :=
match sw with
| Json.obj kvs =>
  (pyItems (getD kvs "paths" (Json.obj []))).bind (fun pes =>
    mapE (fun q => mkEndpointRow kvs q.1 q.2.1 q.2.2.1 q.2.2.2) (docOps pes))
| _ => .error "AttributeError"

/-- Declarative document-order form of `extract_parameters`: per admitted
operation, path-level then operation-level parameters in declared order. -/
def extract_parameters_spec (sw : Json) : Except String (List ParamRow) :=
match sw with
| Json.obj kvs =>
  (pyItems (getD kvs "paths" (Json.obj []))).bind (fun pes =>
    (mapE (fun q => opParamRows q.1 q.2.1 q.2.2.1 q.2.2.2) (docOps pes)).map List.flatten)
| _ => .error "AttributeError"

/-- Declarative document-order form of `extract_responses`. -/
def extract_responses_spec (sw : Json) : Except String (List RespRow) :=
match sw with
| Json.obj kvs =>
  (pyItems (getD kvs "paths" (Json.obj []))).bind (fun pes =>
    (mapE (fun q => opRespRows q.1 q.2.2.1 q.2.2.2) (docOps pes)).map List.flatten)
| _ => .error "AttributeError"

/-- Declarative document-order form of `extract_tags`. -/
def extract_tags_spec (sw : Json) : Except String (List TagRow) :=
match sw with
| Json.obj kvs => (pyIter (getD kvs "tags" (Json.arr []))).bind (mapE mkTagRow)
| _ => .error "AttributeError"

/-- Declarative document-order form of `extract_securities`. -/
def extract_securities_spec (sw : Json) : Except String (List SecRow) :=
match sw with
| Json.obj kvs =>
  (pyItems (pyOr (getD kvs "securityDefinitions" (Json.obj [])) (Json.obj []))).bind
    (mapE (fun e => mkSecRow e.1 e.2))
| _ => .error "AttributeError"

/-- Model and property rows of one definitions entry. -/
def modelEntryRows (e : String × Json) : Except String (ModelRow × List PropRow) :=
match e.2 with
| Json.obj mk => do
  let mr ← mkModelRow e.1 mk
  let pentries ← pyItems (pyOr (getD mk "properties" (Json.obj [])) (Json.obj []))
  let prs ← mapE (fun pe => mkPropRow e.1 pe.1 pe.2) pentries
  pure (mr, prs)
| _ => .error "AttributeError"

/-- Declarative document-order form of `extract_models_and_properties`. -/
def extract_models_spec (sw : Json) :
    Except String (List ModelRow × List PropRow) :=
match sw with
| Json.obj kvs =>
  (pyItems (pyOr (getD kvs "definitions" (Json.obj [])) (Json.obj []))).bind (fun es =>
    (mapE modelEntryRows es).map (fun l => (l.map Prod.fst, (l.map Prod.snd).flatten)))
| _ => .error "AttributeError"

/-- Specification-side de-duplication: keep the first occurrence of each
element, dropping later duplicates. -/
def dedupFirst : List String → List String
| [] => []
| x :: rest => x :: dedupFirst (rest.filter (fun y => y != x))
termination_by l => l.length
decreasing_by
  simp only [List.length_cons]
  exact Nat.lt_succ_of_le (List.length_filter_le _ _)

/-- Decidable well-formedness hypothesis for the counting claims: the paths
value is a dict, path keys are distinct (as Python dict keys always are), and
within each dict path item the admitted method keys are distinct after
upper-casing (a document such as `{"get": …, "GET": …}` violates this). -/
def methodKeysOk (sw : Json) : Bool :=
match sw with
| Json.obj kvs =>
  match getD kvs "paths" (Json.obj []) with
  | Json.obj pes =>
    decide ((pes.map Prod.fst).Nodup) &&
      pes.all (fun pe =>
        match pe.2 with
        | Json.obj pk => decide (((admittedOps pk).map (fun mo => (strUpper mo.1))).Nodup)
        | _ => true)
  | _ => false
| _ => false

/-- Seen-threading form of the de-duplication loop, without the `uniq`
accumulator. -/
def dedupGo : List String → List String → List String
| [], _ => []
| x :: rest, seen =>
  if seen.contains x then dedupGo rest seen else x :: dedupGo rest (x :: seen)

/-- The `seen` set after processing a list. -/
def seenAfter : List String → List String → List String
| [], seen => seen
| x :: rest, seen =>
  if seen.contains x then seenAfter rest seen else seenAfter rest (x :: seen)

/-! ## Concrete documents and values used in the claim analyses -/

/-- A typical path parameter declaration. -/
def paramId : Json :=
Json.obj [("name", Json.str "id"), ("in", Json.str "path"),
  ("required", Json.bool true), ("type", Json.str "string")]

/-- A typical query parameter declaration. -/
def paramQ : Json :=
Json.obj [("name", Json.str "q"), ("in", Json.str "query"), ("type", Json.str "string")]

/-- A document whose only operation declares a parameter that is not a
mapping (the number 5). -/
def docC1param : Json :=
Json.obj [("paths", Json.obj [("/a", Json.obj [("get", Json.obj
  [("parameters", Json.arr [Json.num 5]), ("responses", Json.obj [])])])])]

/-- A document whose tags list holds a value that is not a mapping. -/
def docC1tag : Json :=
Json.obj [("tags", Json.arr [Json.num 3])]

/-- A document declaring the same parameter at path level and at operation
level: the merger de-duplicates it, `parameters_count` does not. -/
def docC2dup : Json :=
Json.obj [("paths", Json.obj [("/a", Json.obj [
  ("parameters", Json.arr [paramId]),
  ("get", Json.obj [("parameters", Json.arr [paramId]), ("responses", Json.obj [])])])])]

/-- A document declaring both a "get" and a "GET" operation under one path:
both upper-case to the same (path, method) pair. -/
def docC2case : Json :=
Json.obj [("paths", Json.obj [("/a", Json.obj [
  ("get", Json.obj [("parameters", Json.arr [paramId]), ("responses", Json.obj [])]),
  ("GET", Json.obj [("parameters", Json.arr [paramId, paramQ]),
    ("responses", Json.obj [])])])])]

/-- A well-keyed document with one path-level and one operation-level
parameter, all distinct. -/
def docC2w : Json :=
Json.obj [("paths", Json.obj [("/a", Json.obj [
  ("parameters", Json.arr [paramId]),
  ("get", Json.obj [("parameters", Json.arr [paramQ]), ("responses", Json.obj [])])])])]

/-- Two parameter dicts with the same name and different locations whose
rendered descriptions nevertheless coincide. -/
def pk4a : List (String × Json) :=
[("name", Json.str "n"), ("in", Json.str "q"), ("type", Json.str "x)")]

def pk4b : List (String × Json) :=
[("name", Json.str "n"), ("in", Json.str "q) : x")]

/-- Paths declared in the order /b, /a. -/
def pathsC5 : List (String × Json) :=
[("/b", Json.obj [("get", Json.obj [])]), ("/a", Json.obj [("get", Json.obj [])])]

def docC5sort : Json :=
Json.obj [("paths", Json.obj pathsC5)]

/-- A document with scheme, basePath and paths but no host. -/
def kvsC6w : List (String × Json) :=
[("schemes", Json.arr [Json.str "http"]), ("basePath", Json.str "/v1"),
 ("paths", Json.obj [("/a", Json.obj [("get", Json.obj [("responses", Json.obj [])])])])]

/-- A document whose operation declares the single tag `""`. -/
def docC8empty : Json :=
Json.obj [("paths", Json.obj [("/a", Json.obj [("get", Json.obj
  [("tags", Json.arr [Json.str ""]), ("responses", Json.obj [])])])])]

/-- Placeholder row used only to extract the value of a computation already
known to succeed. -/
def defaultEndpointRow : EndpointRow :=
{ api_group := none, tags := none, operationId := Json.null, summary := Json.null,
  description := Json.null, deprecated := Json.null, method := "", path := "",
  full_url_template := none, consumes := none, produces := none,
  parameters_count := 0, responses_count := 0, security := none }

/-- Operation declaring its own security requirement. -/
def opC3w : List (String × Json) :=
[("security", Json.arr [Json.obj [("api_key", Json.arr [Json.str "read"])]]),
 ("responses", Json.obj [])]

/-- Document-level entries with a default security requirement. -/
def swC3w : List (String × Json) :=
[("security", Json.arr [Json.obj [("oauth", Json.arr [])]])]

def rowC3w : EndpointRow :=
(mkEndpointRow swC3w "/p" (Json.arr []) "get" opC3w).toOption.getD defaultEndpointRow

/-- Operation declaring no security key at all. -/
def opC3ce : List (String × Json) := []

/-- A document-level default security requirement. -/
def secC3ce : Json := Json.arr [Json.obj [("api_key", Json.arr [])]]

/-- Document with a default security requirement and one operation that
declares no security key. -/
def swC3ce : List (String × Json) :=
[("security", secC3ce),
 ("paths", Json.obj [("/p", Json.obj [("get", Json.obj opC3ce)])])]

/-- The single-CSV exporter row of the key-less operation. -/
def rowC3csvw : CsvRow :=
{ api_group_tags := "", method := "GET", path := "/p", summary := Json.str "",
  description := Json.str "", operationId := Json.str "", deprecated := "false",
  auth := "", parameters := "", requestBody := "", responses := "" }

/-- Operation declaring the single tag "Pets". -/
def opC8w : List (String × Json) :=
[("tags", Json.arr [Json.str "Pets"]), ("responses", Json.obj [])]

def rowC8w : EndpointRow :=
(mkEndpointRow [] "/p" (Json.arr []) "get" opC8w).toOption.getD defaultEndpointRow

/-- A document with a "get"/"GET" pair: two endpoints rows share the
(path, method) identity that a parameter row refers to. -/
def docC10case : Json :=
Json.obj [("paths", Json.obj [("/a", Json.obj [
  ("get", Json.obj [("parameters", Json.arr [paramQ]),
    ("responses", Json.obj [("200", Json.obj [])])]),
  ("GET", Json.obj [("responses", Json.obj [])])])])]

/-- A well-keyed document with one operation, one parameter and one
response. -/
def docC10w : Json :=
Json.obj [("paths", Json.obj [("/a", Json.obj [
  ("get", Json.obj [("parameters", Json.arr [paramQ]),
    ("responses", Json.obj [("200", Json.obj [])])])])])]

/-! ## General lemmas about the error monad and `mapE` -/

theorem exBind_ok {α β : Type} {x : Except String α} {f : α → Except String β}
    {b : β} : x >>= f = Except.ok b ↔ ∃ a, x = Except.ok a ∧ f a = Except.ok b := by
  cases x <;> simp [Bind.bind, Except.bind]

theorem exPure_ok {α : Type} {a b : α} :
    (pure a : Except String α) = Except.ok b ↔ a = b := by
  simp [pure, Except.pure]

theorem exMap_ok {α β : Type} {x : Except String α} {f : α → β} {b : β} :
    x.map f = Except.ok b ↔ ∃ a, x = Except.ok a ∧ f a = b := by
  cases x <;> simp [Except.map]

theorem mapE_ok_length {α β : Type} {f : α → Except String β} :
    ∀ {l : List α} {bs : List β}, mapE f l = Except.ok bs → bs.length = l.length := by
  intro l
  induction l with
  | nil => intro bs h; simp [mapE] at h; simp [← h]
  | cons a rest ih =>
    intro bs h
    simp only [mapE, exBind_ok, exPure_ok] at h
    obtain ⟨b, hb, bs2, hbs2, hcons⟩ := h
    simp [← hcons, ih hbs2]

theorem mapE_ok_get {α β : Type} {f : α → Except String β} :
    ∀ {l : List α} {bs : List β}, mapE f l = Except.ok bs →
      ∀ i (h1 : i < l.length) (h2 : i < bs.length),
        f (l.get ⟨i, h1⟩) = Except.ok (bs.get ⟨i, h2⟩) := by
  intro l
  induction l with
  | nil => intro bs h i h1; exact absurd h1 (Nat.not_lt_zero i)
  | cons a rest ih =>
    intro bs h i h1 h2
    simp only [mapE, exBind_ok, exPure_ok] at h
    obtain ⟨b, hb, bs2, hbs2, hcons⟩ := h
    subst hcons
    cases i with
    | zero => simpa using hb
    | succ j =>
      have hj : j < rest.length := Nat.lt_of_succ_lt_succ h1
      have hj2 : j < bs2.length := Nat.lt_of_succ_lt_succ h2
      simpa using ih hbs2 j hj hj2

theorem mapE_ok_mem {α β : Type} {f : α → Except String β} :
    ∀ {l : List α} {bs : List β}, mapE f l = Except.ok bs →
      ∀ b ∈ bs, ∃ a, a ∈ l ∧ f a = Except.ok b := by
  intro l
  induction l with
  | nil => intro bs h b hb; simp [mapE] at h; subst h; simp at hb
  | cons a rest ih =>
    intro bs h b hb
    simp only [mapE, exBind_ok, exPure_ok] at h
    obtain ⟨b0, hb0, bs2, hbs2, hcons⟩ := h
    subst hcons
    rcases List.mem_cons.mp hb with hb | hb
    · exact ⟨a, List.mem_cons_self a rest, hb ▸ hb0⟩
    · obtain ⟨a2, ha2, hfa2⟩ := ih hbs2 b hb
      exact ⟨a2, List.mem_cons_of_mem a ha2, hfa2⟩

theorem mapE_append {α β : Type} (f : α → Except String β) :
    ∀ l1 l2 : List α, mapE f (l1 ++ l2) =
      (mapE f l1).bind (fun b1 => (mapE f l2).map (fun b2 => b1 ++ b2)) := by
  intro l1 l2
  induction l1 with
  | nil => cases h : mapE f l2 <;> simp [mapE, Except.bind, Except.map, h, pure, Except.pure]
  | cons a rest ih =>
    cases hf : f a with
    | error e => simp [mapE, Bind.bind, Except.bind, hf]
    | ok b =>
      simp only [List.cons_append, mapE, Bind.bind, Except.bind, hf]
      have ih2 : mapE f (rest.append l2) =
          (mapE f rest).bind (fun b1 => Except.map (fun b2 => b1 ++ b2) (mapE f l2)) := ih
      rw [ih2]
      cases h1 : mapE f rest with
      | error e => simp [Except.bind, Except.map, h1]
      | ok bs1 =>
        cases h2 : mapE f l2 <;>
          simp [Except.bind, Except.map, h1, h2, pure, Except.pure]

theorem mapE_map {α γ β : Type} (f : γ → Except String β) (g : α → γ) :
    ∀ l : List α, mapE f (l.map g) = mapE (fun a => f (g a)) l := by
  intro l
  induction l with
  | nil => rfl
  | cons a rest ih => simp [mapE, ih]


/-! ## The extraction loops equal their declarative document-order forms -/

theorem admittedOps_nil : admittedOps [] = [] := rfl

theorem admittedOps_cons_pos {m : String} {opkvs : List (String × Json)}
    {rest : List (String × Json)} (hm : (strLower m) ∈ list_http_methods) :
    admittedOps ((m, Json.obj opkvs) :: rest) = (m, opkvs) :: admittedOps rest := by
  simp [admittedOps, List.filterMap_cons, hm]

theorem admittedOps_cons_neg {m : String} {opkvs : List (String × Json)}
    {rest : List (String × Json)} (hm : ¬ (strLower m) ∈ list_http_methods) :
    admittedOps ((m, Json.obj opkvs) :: rest) = admittedOps rest := by
  simp [admittedOps, List.filterMap_cons, hm]

theorem admittedOps_cons_nonobj {e : String × Json} {rest : List (String × Json)}
    (h : e.2.isObj = false) :
    admittedOps (e :: rest) = admittedOps rest := by
  obtain ⟨m, op⟩ := e
  cases op <;> simp_all [admittedOps, List.filterMap_cons, Json.isObj]

theorem opLoopE_eq (sw : List (String × Json)) (path : String) (pp : Json) :
    ∀ kvs, opLoopE sw path pp kvs =
      mapE (fun mo => mkEndpointRow sw path pp mo.1 mo.2) (admittedOps kvs) := by
  intro kvs
  induction kvs with
  | nil => rfl
  | cons e rest ih =>
    obtain ⟨m, op⟩ := e
    cases op
    case obj opkvs =>
      by_cases hm : (strLower m) ∈ list_http_methods
      · rw [admittedOps_cons_pos hm]
        simp [opLoopE, hm, mapE, ih]
      · rw [admittedOps_cons_neg hm]
        simp [opLoopE, hm, ih]
    all_goals simp [opLoopE, admittedOps, List.filterMap_cons, ih]

theorem docOps_cons_obj {p : String} {pk rest : List (String × Json)} :
    docOps ((p, Json.obj pk) :: rest) =
      ((admittedOps pk).map
        (fun mo => (p, getD pk "parameters" (Json.arr []), mo.1, mo.2))) ++ docOps rest := by
  simp [docOps]

theorem pathLoopE_eq (sw : List (String × Json)) :
    ∀ pes, pathLoopE sw pes =
      mapE (fun q => mkEndpointRow sw q.1 q.2.1 q.2.2.1 q.2.2.2) (docOps pes) := by
  intro pes
  induction pes with
  | nil => rfl
  | cons e rest ih =>
    obtain ⟨p, pitem⟩ := e
    cases pitem
    case obj pk =>
      rw [docOps_cons_obj, mapE_append, mapE_map]
      have h1 := opLoopE_eq sw p (getD pk "parameters" (Json.arr [])) pk
      simp only [pathLoopE, Bind.bind, ih]
      rw [← h1]
      cases hx : opLoopE sw p (getD pk "parameters" (Json.arr [])) pk with
      | error e2 => simp [Except.bind]
      | ok bs1 =>
        cases hy : mapE (fun q => mkEndpointRow sw q.1 q.2.1 q.2.2.1 q.2.2.2) (docOps rest) with
        | error e2 => simp [Except.bind, Except.map]
        | ok bs2 => simp [Except.bind, Except.map, pure, Except.pure]
    all_goals simp [pathLoopE, docOps, ih]

/-- `extract_endpoints` equals its declarative document-order form. -/
theorem extract_endpoints_eq_spec (sw : Json) :
    extract_endpoints sw = extract_endpoints_spec sw := by
  cases sw with
  | obj kvs =>
    simp only [extract_endpoints, extract_endpoints_spec, Bind.bind]
    cases h : pyItems (getD kvs "paths" (Json.obj [])) with
    | error e => simp [Except.bind]
    | ok pes => simp [Except.bind, pathLoopE_eq]
  | null => rfl
  | bool b => rfl
  | num n => rfl
  | str s => rfl
  | arr xs => rfl

theorem opLoopP_eq (path : String) (pp : Json) :
    ∀ kvs, opLoopP path pp kvs =
      (mapE (fun mo => opParamRows path pp mo.1 mo.2) (admittedOps kvs)).map List.flatten := by
  intro kvs
  induction kvs with
  | nil => rfl
  | cons e rest ih =>
    obtain ⟨m, op⟩ := e
    cases op
    case obj opkvs =>
      by_cases hm : (strLower m) ∈ list_http_methods
      · rw [admittedOps_cons_pos hm]
        simp only [opLoopP, hm, if_true, mapE, Bind.bind, ih]
        cases hx : opParamRows path pp m opkvs with
        | error e2 => simp [Except.bind, Except.map, hm, hx]
        | ok b =>
          cases hy : mapE (fun mo => opParamRows path pp mo.1 mo.2) (admittedOps rest) with
          | error e2 => simp [Except.bind, Except.map, hm, hx, hy]
          | ok bs => simp [Except.bind, Except.map, hm, hx, hy, pure, Except.pure]
      · rw [admittedOps_cons_neg hm]
        simp [opLoopP, hm, ih]
    all_goals simp [opLoopP, admittedOps, List.filterMap_cons, ih]

theorem pathLoopP_eq :
    ∀ pes, pathLoopP pes =
      (mapE (fun q => opParamRows q.1 q.2.1 q.2.2.1 q.2.2.2) (docOps pes)).map List.flatten := by
  intro pes
  induction pes with
  | nil => rfl
  | cons e rest ih =>
    obtain ⟨p, pitem⟩ := e
    cases pitem
    case obj pk =>
      rw [docOps_cons_obj, mapE_append, mapE_map]
      have h1 := opLoopP_eq p (getD pk "parameters" (Json.arr [])) pk
      simp only [pathLoopP, Bind.bind, ih]
      cases hx : mapE (fun a => opParamRows p (getD pk "parameters" (Json.arr [])) a.1 a.2)
          (admittedOps pk) with
      | error e2 =>
        rw [hx] at h1
        simp [h1, hx, Except.bind, Except.map]
      | ok bs1 =>
        rw [hx] at h1
        simp only [h1, Except.map]
        cases hy : mapE (fun q => opParamRows q.1 q.2.1 q.2.2.1 q.2.2.2) (docOps rest) with
        | error e2 => simp [Except.bind, Except.map, hy]
        | ok bs2 => simp [Except.bind, Except.map, hy, pure, Except.pure]
    all_goals simp [pathLoopP, docOps, ih]

/-- `extract_parameters` equals its declarative document-order form. -/
theorem extract_parameters_eq_spec (sw : Json) :
    extract_parameters sw = extract_parameters_spec sw := by
  cases sw with
  | obj kvs =>
    simp only [extract_parameters, extract_parameters_spec, Bind.bind]
    cases h : pyItems (getD kvs "paths" (Json.obj [])) with
    | error e => simp [Except.bind]
    | ok pes => simp [Except.bind, pathLoopP_eq]
  | null => rfl
  | bool b => rfl
  | num n => rfl
  | str s => rfl
  | arr xs => rfl

theorem opLoopR_eq (path : String) :
    ∀ kvs, opLoopR path kvs =
      (mapE (fun mo => opRespRows path mo.1 mo.2) (admittedOps kvs)).map List.flatten := by
  intro kvs
  induction kvs with
  | nil => rfl
  | cons e rest ih =>
    obtain ⟨m, op⟩ := e
    cases op
    case obj opkvs =>
      by_cases hm : (strLower m) ∈ list_http_methods
      · rw [admittedOps_cons_pos hm]
        simp only [opLoopR, hm, if_true, mapE, Bind.bind, ih]
        cases hx : opRespRows path m opkvs with
        | error e2 => simp [Except.bind, Except.map, hm, hx]
        | ok b =>
          cases hy : mapE (fun mo => opRespRows path mo.1 mo.2) (admittedOps rest) with
          | error e2 => simp [Except.bind, Except.map, hm, hx, hy]
          | ok bs => simp [Except.bind, Except.map, hm, hx, hy, pure, Except.pure]
      · rw [admittedOps_cons_neg hm]
        simp [opLoopR, hm, ih]
    all_goals simp [opLoopR, admittedOps, List.filterMap_cons, ih]

theorem pathLoopR_eq :
    ∀ pes, pathLoopR pes =
      (mapE (fun q => opRespRows q.1 q.2.2.1 q.2.2.2) (docOps pes)).map List.flatten := by
  intro pes
  induction pes with
  | nil => rfl
  | cons e rest ih =>
    obtain ⟨p, pitem⟩ := e
    cases pitem
    case obj pk =>
      rw [docOps_cons_obj, mapE_append, mapE_map]
      have h1 := opLoopR_eq p pk
      simp only [pathLoopR, Bind.bind, ih]
      cases hx : mapE (fun a => opRespRows p a.1 a.2) (admittedOps pk) with
      | error e2 =>
        rw [hx] at h1
        simp [h1, hx, Except.bind, Except.map]
      | ok bs1 =>
        rw [hx] at h1
        simp only [h1, Except.map]
        cases hy : mapE (fun q => opRespRows q.1 q.2.2.1 q.2.2.2) (docOps rest) with
        | error e2 => simp [Except.bind, Except.map, hy]
        | ok bs2 => simp [Except.bind, Except.map, hy, pure, Except.pure]
    all_goals simp [pathLoopR, docOps, ih]

/-- `extract_responses` equals its declarative document-order form. -/
theorem extract_responses_eq_spec (sw : Json) :
    extract_responses sw = extract_responses_spec sw := by
  cases sw with
  | obj kvs =>
    simp only [extract_responses, extract_responses_spec, Bind.bind]
    cases h : pyItems (getD kvs "paths" (Json.obj [])) with
    | error e => simp [Except.bind]
    | ok pes => simp [Except.bind, pathLoopR_eq]
  | null => rfl
  | bool b => rfl
  | num n => rfl
  | str s => rfl
  | arr xs => rfl

theorem tagLoop_eq : ∀ ts, tagLoop ts = mapE mkTagRow ts := by
  intro ts
  induction ts with
  | nil => rfl
  | cons t rest ih => simp [tagLoop, mapE, ih]

/-- `extract_tags` equals its declarative document-order form. -/
theorem extract_tags_eq_spec (sw : Json) : extract_tags sw = extract_tags_spec sw := by
  cases sw with
  | obj kvs =>
    simp only [extract_tags, extract_tags_spec, Bind.bind]
    cases h : pyIter (getD kvs "tags" (Json.arr [])) with
    | error e => simp [Except.bind]
    | ok ts => simp [Except.bind, tagLoop_eq]
  | null => rfl
  | bool b => rfl
  | num n => rfl
  | str s => rfl
  | arr xs => rfl

theorem secLoop_eq : ∀ es, secLoop es = mapE (fun e => mkSecRow e.1 e.2) es := by
  intro es
  induction es with
  | nil => rfl
  | cons e rest ih => simp [secLoop, mapE, ih]

/-- `extract_securities` equals its declarative document-order form. -/
theorem extract_securities_eq_spec (sw : Json) :
    extract_securities sw = extract_securities_spec sw := by
  cases sw with
  | obj kvs =>
    simp only [extract_securities, extract_securities_spec, Bind.bind]
    cases h : pyItems (pyOr (getD kvs "securityDefinitions" (Json.obj [])) (Json.obj [])) with
    | error e => simp [Except.bind]
    | ok es => simp [Except.bind, secLoop_eq]
  | null => rfl
  | bool b => rfl
  | num n => rfl
  | str s => rfl
  | arr xs => rfl

theorem propLoop_eq (name : String) :
    ∀ pes, propLoop name pes = mapE (fun pe => mkPropRow name pe.1 pe.2) pes := by
  intro pes
  induction pes with
  | nil => rfl
  | cons e rest ih => simp [propLoop, mapE, ih]

theorem modelLoop_eq :
    ∀ es, modelLoop es =
      (mapE modelEntryRows es).map (fun l => (l.map Prod.fst, (l.map Prod.snd).flatten)) := by
  intro es
  induction es with
  | nil => rfl
  | cons e rest ih =>
    obtain ⟨name, m⟩ := e
    cases m
    case obj mk2 =>
      simp only [modelLoop, modelEntryRows, mapE, Bind.bind, ih]
      cases h1 : mkModelRow name mk2 with
      | error e2 => simp [Except.bind, Except.map]
      | ok mr =>
        cases h2 : pyItems (pyOr (getD mk2 "properties" (Json.obj [])) (Json.obj [])) with
        | error e2 => simp [Except.bind, Except.map]
        | ok pentries =>
          simp only [Except.bind]
          rw [propLoop_eq]
          cases h3 : mapE (fun pe => mkPropRow name pe.1 pe.2) pentries with
          | error e2 => simp [Except.bind, Except.map, pure, Except.pure]
          | ok prs =>
            cases h4 : mapE modelEntryRows rest with
            | error e2 => simp [Except.bind, Except.map, pure, Except.pure]
            | ok l => simp [Except.bind, Except.map, pure, Except.pure]
    all_goals simp [modelLoop, modelEntryRows, mapE, Bind.bind, Except.bind, Except.map, ih]

/-- `extract_models_and_properties` equals its declarative document-order
form. -/
theorem extract_models_eq_spec (sw : Json) :
    extract_models_and_properties sw = extract_models_spec sw := by
  cases sw with
  | obj kvs =>
    simp only [extract_models_and_properties, extract_models_spec, Bind.bind]
    cases h : pyItems (pyOr (getD kvs "definitions" (Json.obj [])) (Json.obj [])) with
    | error e => simp [Except.bind]
    | ok es => simp [Except.bind, modelLoop_eq]
  | null => rfl
  | bool b => rfl
  | num n => rfl
  | str s => rfl
  | arr xs => rfl

/-! ## Properties of the de-duplication loop of `collect_params` -/

theorem dedup_loop_eq_go : ∀ (xs seen uniq : List String),
    dedup_loop xs seen uniq = uniq ++ dedupGo xs seen := by
  intro xs
  induction xs with
  | nil => intro seen uniq; simp [dedup_loop, dedupGo]
  | cons x rest ih =>
    intro seen uniq
    by_cases h : x ∈ seen
    · simp [dedup_loop, dedupGo, h, ih]
    · simp [dedup_loop, dedupGo, h, ih]

theorem mem_seenAfter : ∀ (xs seen : List String) (a : String),
    a ∈ seenAfter xs seen ↔ a ∈ seen ∨ a ∈ xs := by
  intro xs
  induction xs with
  | nil => intro seen a; simp [seenAfter]
  | cons x rest ih =>
    intro seen a
    by_cases h : x ∈ seen
    · rw [seenAfter]
      simp only [h, decide_True, List.elem_eq_mem, if_true]
      rw [ih]
      simp only [List.mem_cons]
      constructor
      · tauto
      · rintro (ha | ha | ha)
        · tauto
        · subst ha; tauto
        · tauto
    · rw [seenAfter]
      simp only [h, decide_False, List.elem_eq_mem, Bool.false_eq_true, if_false]
      rw [ih]
      simp only [List.mem_cons]
      tauto

theorem dedupGo_congr : ∀ (xs seen seen2 : List String),
    (∀ a : String, a ∈ seen ↔ a ∈ seen2) → dedupGo xs seen = dedupGo xs seen2 := by
  intro xs
  induction xs with
  | nil => intro seen seen2 h; rfl
  | cons x rest ih =>
    intro seen seen2 h
    by_cases hx : x ∈ seen2
    · rw [dedupGo, dedupGo]
      simp only [hx, (h x).mpr hx, decide_True, List.elem_eq_mem, if_true]
      exact ih seen seen2 h
    · have hx1 : ¬ x ∈ seen := fun hc => hx ((h x).mp hc)
      rw [dedupGo, dedupGo]
      simp only [hx, hx1, decide_False, List.elem_eq_mem, Bool.false_eq_true, if_false]
      have h2 : ∀ a : String, a ∈ x :: seen ↔ a ∈ x :: seen2 := by
        intro a
        simp only [List.mem_cons]
        exact or_congr Iff.rfl (h a)
      rw [ih (x :: seen) (x :: seen2) h2]

theorem dedupGo_append : ∀ (xs ys seen : List String),
    dedupGo (xs ++ ys) seen = dedupGo xs seen ++ dedupGo ys (seenAfter xs seen) := by
  intro xs
  induction xs with
  | nil => intro ys seen; simp [dedupGo, seenAfter]
  | cons x rest ih =>
    intro ys seen
    show dedupGo (x :: (rest ++ ys)) seen = _
    by_cases h : x ∈ seen
    · rw [dedupGo, dedupGo, seenAfter]
      simp only [h, decide_True, List.elem_eq_mem, if_true]
      exact ih ys seen
    · rw [dedupGo, dedupGo, seenAfter]
      simp only [h, decide_False, List.elem_eq_mem, Bool.false_eq_true, if_false]
      rw [ih ys (x :: seen)]
      simp

theorem dedupGo_all_seen : ∀ (xs seen : List String),
    (∀ a ∈ xs, a ∈ seen) → dedupGo xs seen = [] := by
  intro xs
  induction xs with
  | nil => intro seen _; rfl
  | cons x rest ih =>
    intro seen h
    have hx : x ∈ seen := h x (List.mem_cons_self x rest)
    rw [dedupGo]
    simp only [hx, decide_True, List.elem_eq_mem, if_true]
    exact ih seen (fun a ha => h a (List.mem_cons_of_mem x ha))

theorem dedupGo_self_append : ∀ (xs seen : List String),
    dedupGo (xs ++ xs) seen = dedupGo xs seen := by
  intro xs seen
  rw [dedupGo_append]
  have h : dedupGo xs (seenAfter xs seen) = [] := by
    apply dedupGo_all_seen
    intro a ha
    rw [mem_seenAfter]
    exact Or.inr ha
  simp [h]

theorem mem_dedupGo : ∀ (xs seen : List String) (a : String),
    a ∈ dedupGo xs seen ↔ a ∈ xs ∧ ¬ a ∈ seen := by
  intro xs
  induction xs with
  | nil => intro seen a; simp [dedupGo]
  | cons x rest ih =>
    intro seen a
    by_cases h : x ∈ seen
    · rw [dedupGo]
      simp only [h, decide_True, List.elem_eq_mem, if_true]
      rw [ih]
      simp only [List.mem_cons]
      constructor
      · tauto
      · rintro ⟨ha | ha, hs⟩
        · subst ha; exact absurd h hs
        · exact ⟨ha, hs⟩
    · rw [dedupGo]
      simp only [h, decide_False, List.elem_eq_mem, Bool.false_eq_true, if_false]
      simp only [List.mem_cons, ih, List.mem_cons]
      constructor
      · rintro (ha | ⟨ha, hs⟩)
        · subst ha; exact ⟨Or.inl rfl, h⟩
        · refine ⟨Or.inr ha, ?_⟩
          intro hc
          exact hs (Or.inr hc)
      · rintro ⟨ha | ha, hs⟩
        · exact Or.inl ha
        · by_cases hax : a = x
          · exact Or.inl hax
          · exact Or.inr ⟨ha, fun hc => (by
              rcases hc with hc | hc
              · exact hax hc
              · exact hs hc)⟩

theorem nodup_dedupGo : ∀ (xs seen : List String), (dedupGo xs seen).Nodup := by
  intro xs
  induction xs with
  | nil => intro seen; simp [dedupGo]
  | cons x rest ih =>
    intro seen
    by_cases h : x ∈ seen
    · rw [dedupGo]
      simp only [h, decide_True, List.elem_eq_mem, if_true]
      exact ih seen
    · rw [dedupGo]
      simp only [h, decide_False, List.elem_eq_mem, Bool.false_eq_true, if_false]
      refine List.nodup_cons.mpr ⟨?_, ih (x :: seen)⟩
      intro hmem
      have := (mem_dedupGo rest (x :: seen) x).mp hmem
      exact this.2 (List.mem_cons_self x seen)

theorem dedupGo_of_nodup : ∀ (xs seen : List String), xs.Nodup →
    (∀ a ∈ xs, ¬ a ∈ seen) → dedupGo xs seen = xs := by
  intro xs
  induction xs with
  | nil => intro seen _ _; rfl
  | cons x rest ih =>
    intro seen hnd hs
    have hx : ¬ x ∈ seen := hs x (List.mem_cons_self x rest)
    rw [dedupGo]
    simp only [hx, decide_False, List.elem_eq_mem, Bool.false_eq_true, if_false]
    congr 1
    apply ih (x :: seen) (List.Nodup.of_cons hnd)
    intro a ha
    intro hc
    rcases List.mem_cons.mp hc with he | he
    · exact (List.nodup_cons.mp hnd).1 (he ▸ ha)
    · exact hs a (List.mem_cons_of_mem x ha) he

theorem dedupGo_idem : ∀ xs : List String, dedupGo (dedupGo xs []) [] = dedupGo xs [] := by
  intro xs
  apply dedupGo_of_nodup
  · exact nodup_dedupGo xs []
  · intro a _
    simp

/-! ## Inversion lemmas for the row builders -/

theorem pyIter_len {j : Json} {l : List Json} (h : pyIter j = Except.ok l) :
    pyLen j = Except.ok l.length := by
  cases j with
  | arr xs =>
    simp only [pyIter, Except.ok.injEq] at h
    simp [pyLen, ← h]
  | str s =>
    simp only [pyIter, Except.ok.injEq] at h
    subst h
    simp only [pyLen, List.length_map]
    rfl
  | obj kvs =>
    simp only [pyIter, Except.ok.injEq] at h
    simp [pyLen, ← h]
  | null => simp [pyIter] at h
  | bool b => simp [pyIter] at h
  | num n => simp [pyIter] at h

set_option maxRecDepth 100000 in
theorem mkEndpointRow_ok {sw : List (String × Json)} {path : String} {pp : Json}
    {m : String} {op : List (String × Json)} {r : EndpointRow}
    (h : mkEndpointRow sw path pp m op = Except.ok r) :
    r.path = path ∧ r.method = strUpper m ∧
    (∃ n1 n2, pyLen (getD op "parameters" (Json.arr [])) = Except.ok n1 ∧
      pyLen pp = Except.ok n2 ∧ r.parameters_count = n1 + n2) ∧
    render_security (getD op "security" (getD sw "security" (Json.arr []))) =
      Except.ok r.security ∧
    build_full_url_template (getD sw "schemes" (Json.arr [])) (getD sw "host" Json.null)
      (getD sw "basePath" Json.null) path = Except.ok r.full_url_template ∧
    api_group_of (getD op "tags" (Json.arr [])) = Except.ok r.api_group := by
  simp only [mkEndpointRow, exBind_ok, exPure_ok] at h
  obtain ⟨ag, hag, h⟩ := h
  obtain ⟨fl, hfl, h⟩ := h
  obtain ⟨tc, htc, h⟩ := h
  obtain ⟨fu, hfu, h⟩ := h
  obtain ⟨cc, hcc, h⟩ := h
  obtain ⟨pc, hpc, h⟩ := h
  obtain ⟨n1, hn1, h⟩ := h
  obtain ⟨n2, hn2, h⟩ := h
  obtain ⟨rc, hrc, h⟩ := h
  obtain ⟨sc, hsc, h⟩ := h
  subst h
  refine ⟨rfl, rfl, ⟨n1, n2, hn1, hn2, rfl⟩, ?_, hfu, ?_⟩
  · simp only [render_security, exBind_ok]
    exact ⟨fl, hfl, hsc⟩
  · exact hag

theorem mkParamRow_ok {ag : Option Json} {oid : Json} {method path : String}
    {pj : Json} {pr : ParamRow}
    (h : mkParamRow ag oid method path pj = Except.ok pr) :
    pr.path = path ∧ pr.method = method := by
  cases pj with
  | obj pk =>
    simp only [mkParamRow, exBind_ok, exPure_ok] at h
    obtain ⟨a1, h1, h⟩ := h
    obtain ⟨a2, h2, h⟩ := h
    obtain ⟨a3, h3, h⟩ := h
    obtain ⟨a4, h4, h⟩ := h
    obtain ⟨a5, h5, h⟩ := h
    subst h
    exact ⟨rfl, rfl⟩
  | null => simp [mkParamRow] at h
  | bool b => simp [mkParamRow] at h
  | num n => simp [mkParamRow] at h
  | str s => simp [mkParamRow] at h
  | arr xs => simp [mkParamRow] at h

theorem paramRowsLoop_ok_keys {ag : Option Json} {oid : Json} {method path : String} :
    ∀ {ps : List Json} {rows : List ParamRow},
    paramRowsLoop ag oid method path ps = Except.ok rows →
    ∀ r ∈ rows, r.path = path ∧ r.method = method := by
  intro ps
  induction ps with
  | nil =>
    intro rows h r hr
    simp only [paramRowsLoop, Except.ok.injEq] at h
    subst h
    simp at hr
  | cons p rest ih =>
    intro rows h r hr
    simp only [paramRowsLoop, exBind_ok, exPure_ok] at h
    obtain ⟨r1, hr1, rs, hrs, hcons⟩ := h
    subst hcons
    rcases List.mem_cons.mp hr with he | he
    · subst he
      exact mkParamRow_ok hr1
    · exact ih hrs r he

theorem paramRowsLoop_ok_length {ag : Option Json} {oid : Json} {method path : String} :
    ∀ {ps : List Json} {rows : List ParamRow},
    paramRowsLoop ag oid method path ps = Except.ok rows → rows.length = ps.length := by
  intro ps
  induction ps with
  | nil =>
    intro rows h
    simp only [paramRowsLoop, Except.ok.injEq] at h
    simp [← h]
  | cons p rest ih =>
    intro rows h
    simp only [paramRowsLoop, exBind_ok, exPure_ok] at h
    obtain ⟨r1, hr1, rs, hrs, hcons⟩ := h
    subst hcons
    simp [ih hrs]

theorem opParamRows_ok {path : String} {pp : Json} {m : String}
    {op : List (String × Json)} {rows : List ParamRow}
    (h : opParamRows path pp m op = Except.ok rows) :
    (∀ r ∈ rows, r.path = path ∧ r.method = strUpper m) ∧
    (∃ pl ol, pyIter pp = Except.ok pl ∧
      pyIter (getD op "parameters" (Json.arr [])) = Except.ok ol ∧
      rows.length = pl.length + ol.length) := by
  simp only [opParamRows, exBind_ok, exPure_ok] at h
  obtain ⟨ag, hag, h⟩ := h
  obtain ⟨pl, hpl, h⟩ := h
  obtain ⟨ol, hol, h⟩ := h
  refine ⟨fun r hr => paramRowsLoop_ok_keys h r hr, pl, ol, hpl, hol, ?_⟩
  have := paramRowsLoop_ok_length h
  simpa using this

theorem respLoop_ok_keys {ag : Option Json} {oid : Json} {method path : String} :
    ∀ {res : List (String × Json)} {rows : List RespRow},
    respLoop ag oid method path res = Except.ok rows →
    ∀ r ∈ rows, r.path = path ∧ r.method = method := by
  intro res
  induction res with
  | nil =>
    intro rows h r hr
    simp only [respLoop, Except.ok.injEq] at h
    subst h
    simp at hr
  | cons e rest ih =>
    intro rows h r hr
    obtain ⟨code, resp⟩ := e
    cases resp with
    | obj rk =>
      simp only [respLoop, exBind_ok, exPure_ok] at h
      obtain ⟨r1, hr1, rs, hrs, hcons⟩ := h
      subst hcons
      rcases List.mem_cons.mp hr with hm | hm
      · subst hm
        simp only [mkRespRow, exBind_ok, exPure_ok] at hr1
        obtain ⟨a1, h1, hr1⟩ := hr1
        obtain ⟨a2, h2, hr1⟩ := hr1
        obtain ⟨a3, h3, hr1⟩ := hr1
        obtain ⟨a4, h4, hr1⟩ := hr1
        obtain ⟨a5, h5, hr1⟩ := hr1
        obtain ⟨a6, h6, hr1⟩ := hr1
        obtain ⟨a7, h7, hr1⟩ := hr1
        subst hr1
        exact ⟨rfl, rfl⟩
      · exact ih hrs r hm
    | null => simp only [respLoop] at h; exact ih h r hr
    | bool b => simp only [respLoop] at h; exact ih h r hr
    | num n => simp only [respLoop] at h; exact ih h r hr
    | str s => simp only [respLoop] at h; exact ih h r hr
    | arr xs => simp only [respLoop] at h; exact ih h r hr

theorem opRespRows_ok_keys {path m : String} {op : List (String × Json)}
    {rows : List RespRow} (h : opRespRows path m op = Except.ok rows) :
    ∀ r ∈ rows, r.path = path ∧ r.method = strUpper m := by
  simp only [opRespRows, exBind_ok, exPure_ok] at h
  obtain ⟨ag, hag, h⟩ := h
  obtain ⟨res, hres, h⟩ := h
  exact respLoop_ok_keys h

/-! ## Counting rows by (path, method) key -/

theorem mapE_map_ok {Q R S : Type} {f : Q → Except String R} {g : R → S} :
    ∀ {qs : List Q} {rs : List R}, mapE f qs = Except.ok rs →
      mapE (fun q => (f q).map g) qs = Except.ok (rs.map g) := by
  intro qs
  induction qs with
  | nil =>
    intro rs h
    simp only [mapE, Except.ok.injEq] at h
    simp [mapE, ← h]
  | cons q rest ih =>
    intro rs h
    simp only [mapE, exBind_ok, exPure_ok] at h
    obtain ⟨r, hr, rs2, hrs2, hcons⟩ := h
    subst hcons
    simp only [mapE, exBind_ok, exPure_ok, List.map_cons]
    exact ⟨g r, by simp [hr, Except.map], rs2.map g, ih hrs2, rfl⟩

theorem flatten_singletons {R : Type} : ∀ rs : List R, (rs.map (fun r => [r])).flatten = rs := by
  intro rs
  induction rs with
  | nil => rfl
  | cons r rest ih => simp [ih]

theorem count_join {Q R : Type} (kq : Q → String × String) (key : R → String × String)
    (g : Q → Except String (List R)) :
    ∀ (qs : List Q) (bs : List (List R)), mapE g qs = Except.ok bs →
    (∀ q b, g q = Except.ok b → ∀ r ∈ b, key r = kq q) →
    ((qs.map kq).Nodup) →
    ∀ i (h1 : i < qs.length) (h2 : i < bs.length),
      ((bs.flatten).filter (fun r => decide (key r = kq (qs.get ⟨i, h1⟩)))).length =
        (bs.get ⟨i, h2⟩).length := by
  intro qs
  induction qs with
  | nil => intro bs h hk hnd i h1; exact absurd h1 (Nat.not_lt_zero i)
  | cons q rest ih =>
    intro bs h hk hnd i h1 h2
    simp only [mapE, exBind_ok, exPure_ok] at h
    obtain ⟨b0, hb0, bs2, hbs2, hcons⟩ := h
    subst hcons
    have hnd2 : ((q :: rest).map kq).Nodup := hnd
    rw [List.map_cons, List.nodup_cons] at hnd2
    cases i with
    | zero =>
      simp only [List.get, List.flatten_cons, List.filter_append, List.length_append]
      have hall : b0.filter (fun r => decide (key r = kq q)) = b0 := by
        apply List.filter_eq_self.mpr
        intro r hr
        exact decide_eq_true (hk q b0 hb0 r hr)
      have hzero : bs2.flatten.filter (fun r => decide (key r = kq q)) = [] := by
        apply List.filter_eq_nil_iff.mpr
        intro r hr
        obtain ⟨b, hb, hrb⟩ := List.mem_flatten.mp hr
        obtain ⟨q2, hq2, hgq2⟩ := mapE_ok_mem hbs2 b hb
        have hkey := hk q2 b hgq2 r hrb
        simp only [decide_eq_true_eq, hkey]
        intro hcontra
        exact hnd2.1 (hcontra ▸ List.mem_map_of_mem kq hq2)
      rw [hall, hzero]
      simp
    | succ j =>
      have hj1 : j < rest.length := Nat.lt_of_succ_lt_succ h1
      have hj2 : j < bs2.length := Nat.lt_of_succ_lt_succ h2
      simp only [List.get_cons_succ, List.flatten_cons, List.filter_append, List.length_append]
      have hzero : b0.filter (fun r => decide (key r = kq (rest.get ⟨j, hj1⟩))) = [] := by
        apply List.filter_eq_nil_iff.mpr
        intro r hr
        have hkey := hk q b0 hb0 r hr
        simp only [decide_eq_true_eq, hkey]
        intro hcontra
        exact hnd2.1 (hcontra.symm ▸ List.mem_map_of_mem kq (rest.get_mem j hj1))
      rw [hzero]
      simp only [List.length_nil, Nat.zero_add]
      exact ih bs2 hbs2 hk hnd2.2 j hj1 hj2

theorem docOps_path_mem : ∀ (pes : List (String × Json))
    (q : String × Json × String × List (String × Json)),
    q ∈ docOps pes → q.1 ∈ pes.map Prod.fst := by
  intro pes
  induction pes with
  | nil => intro q hq; simp [docOps] at hq
  | cons pe rest ih =>
    intro q hq
    obtain ⟨p, pitem⟩ := pe
    cases pitem
    case obj pk =>
      rw [docOps_cons_obj] at hq
      rcases List.mem_append.mp hq with hq | hq
      · obtain ⟨mo, _, hmo⟩ := List.mem_map.mp hq
        subst hmo
        simp
      · exact List.mem_cons_of_mem _ (ih q hq)
    all_goals
      simp only [docOps, List.flatMap_cons] at hq
      exact List.mem_cons_of_mem _ (ih q (by simpa [docOps] using hq))

/-- Injectivity of the (path, upper-cased method) key over the admitted
operations of a well-keyed document. -/
theorem docOps_keys_nodup : ∀ (pes : List (String × Json)),
    (pes.map Prod.fst).Nodup →
    (∀ pe ∈ pes, ∀ pk : List (String × Json), pe.2 = Json.obj pk →
      ((admittedOps pk).map (fun mo => (strUpper mo.1))).Nodup) →
    ((docOps pes).map (fun q => (q.1, (strUpper q.2.2.1)))).Nodup := by
  intro pes
  induction pes with
  | nil => intro _ _; simp [docOps]
  | cons pe rest ih =>
    intro hnd hin
    obtain ⟨p, pitem⟩ := pe
    rw [List.map_cons, List.nodup_cons] at hnd
    have ihr : ((docOps rest).map (fun q => (q.1, (strUpper q.2.2.1)))).Nodup :=
      ih hnd.2 (fun pe2 hpe2 pk hpk => hin pe2 (List.mem_cons_of_mem _ hpe2) pk hpk)
    cases pitem
    case obj pk =>
      rw [docOps_cons_obj, List.map_append]
      apply List.Nodup.append
      · have hup : ((admittedOps pk).map (fun mo => (strUpper mo.1))).Nodup :=
          hin (p, Json.obj pk) (List.mem_cons_self _ _) pk rfl
        rw [List.map_map]
        have heq : ((fun q => (q.1, (strUpper q.2.2.1))) ∘
            (fun mo => (p, getD pk "parameters" (Json.arr []), mo.1, mo.2))) =
            (fun mo : String × List (String × Json) => (p, (strUpper mo.1))) := by
          funext mo
          rfl
        rw [heq]
        have : (fun mo : String × List (String × Json) => (p, (strUpper mo.1))) =
            (fun u => (p, u)) ∘ (fun mo : String × List (String × Json) => (strUpper mo.1)) := by
          funext mo
          rfl
        rw [this, ← List.map_map]
        apply List.Nodup.map
        · intro a b hab
          simpa using hab
        · exact hup
      · exact ihr
      · intro x hx hy
        rw [List.map_map] at hx
        obtain ⟨mo, hmo_mem, hmo⟩ := List.mem_map.mp hx
        obtain ⟨q2, hq2, hq2e⟩ := List.mem_map.mp hy
        have hx1 : x = (p, (strUpper mo.1)) := by rw [← hmo]; rfl
        have hq21 : q2.1 = p := by
          rw [hx1] at hq2e
          exact congrArg Prod.fst hq2e
        have hmem : p ∈ rest.map Prod.fst := hq21 ▸ docOps_path_mem rest q2 hq2
        exact hnd.1 hmem
    all_goals
      simpa [docOps, List.flatMap_cons] using ihr

theorem methodKeysOk_obj {kvs : List (String × Json)}
    (h : methodKeysOk (Json.obj kvs) = true) :
    ∃ pes : List (String × Json), getD kvs "paths" (Json.obj []) = Json.obj pes ∧
      (pes.map Prod.fst).Nodup ∧
      ∀ pe ∈ pes, ∀ pk : List (String × Json), pe.2 = Json.obj pk →
        ((admittedOps pk).map (fun mo => (strUpper mo.1))).Nodup := by
  simp only [methodKeysOk] at h
  cases hp : getD kvs "paths" (Json.obj []) with
  | obj pes =>
    rw [hp] at h
    simp only [Bool.and_eq_true, decide_eq_true_eq, List.all_eq_true] at h
    refine ⟨pes, rfl, h.1, ?_⟩
    intro pe hpe pk hpk
    have := h.2 pe hpe
    rw [hpk] at this
    simpa using this
  | null => rw [hp] at h; simp at h
  | bool b => rw [hp] at h; simp at h
  | num n => rw [hp] at h; simp at h
  | str s => rw [hp] at h; simp at h
  | arr xs => rw [hp] at h; simp at h

theorem methodKeysOk_shape {sw : Json} (h : methodKeysOk sw = true) :
    ∃ kvs : List (String × Json), sw = Json.obj kvs := by
  cases sw with
  | obj kvs => exact ⟨kvs, rfl⟩
  | null => simp [methodKeysOk] at h
  | bool b => simp [methodKeysOk] at h
  | num n => simp [methodKeysOk] at h
  | str s => simp [methodKeysOk] at h
  | arr xs => simp [methodKeysOk] at h

/-! ## Glue lemmas for the claim theorems -/

theorem exBindM_ok {α β : Type} {x : Except String α} {f : α → Except String β}
    {b : β} : Except.bind x f = Except.ok b ↔ ∃ a, x = Except.ok a ∧ f a = Except.ok b := by
  cases x <;> simp [Except.bind]

theorem getD_cons_self {k : String} {v : Json} {rest : List (String × Json)} {d : Json} :
    getD ((k, v) :: rest) k d = v := by
  simp [getD, lookupKey, List.find?]

theorem getD_hasKey_false {kvs : List (String × Json)} {k : String} {d : Json}
    (h : hasKey kvs k = false) : getD kvs k d = d := by
  unfold hasKey at h
  unfold getD
  cases hl : lookupKey kvs k with
  | none => rfl
  | some v => rw [hl] at h; simp at h

theorem getD_split (kvs : List (String × Json)) (k : String) (d : Json) :
    getD kvs k d = if hasKey kvs k then getD kvs k Json.null else d := by
  unfold getD hasKey
  cases hl : lookupKey kvs k <;> simp

theorem getD_cons_ne {k k2 : String} {v : Json} {rest : List (String × Json)}
    {d : Json} (h : (k == k2) = false) :
    getD ((k, v) :: rest) k2 d = getD rest k2 d := by
  simp [getD, lookupKey, List.find?, h]

theorem lookupKey_filter {kvs : List (String × Json)} {k : String}
    {p : String × Json → Bool} (hp : ∀ e ∈ kvs, e.1 = k → p e = true) :
    lookupKey (kvs.filter p) k = lookupKey kvs k := by
  induction kvs with
  | nil => rfl
  | cons e rest ih =>
    by_cases hk : e.1 == k
    · have he : p e = true := hp e (List.mem_cons_self e rest) (by simpa using hk)
      rw [List.filter_cons, he]
      simp only [if_true]
      unfold lookupKey
      rw [List.find?, List.find?]
      simp only [hk]
    · have ihr := ih (fun e2 he2 hke2 => hp e2 (List.mem_cons_of_mem e he2) hke2)
      rw [List.filter_cons]
      by_cases hpe : p e = true
      · rw [hpe]
        simp only [if_true]
        unfold lookupKey
        rw [List.find?, List.find?]
        simp only [hk]
        exact ihr
      · simp only [hpe, if_false]
        unfold lookupKey at ihr ⊢
        rw [List.find?]
        simp only [hk]
        exact ihr

theorem extract_endpoints_mapE {kvs pes : List (String × Json)} {erows : List EndpointRow}
    (hp : getD kvs "paths" (Json.obj []) = Json.obj pes)
    (h : extract_endpoints (Json.obj kvs) = Except.ok erows) :
    mapE (fun q => mkEndpointRow kvs q.1 q.2.1 q.2.2.1 q.2.2.2) (docOps pes) =
      Except.ok erows := by
  rw [extract_endpoints_eq_spec] at h
  simp only [extract_endpoints_spec, hp, pyItems] at h
  simpa [Except.bind] using h

theorem extract_parameters_blocks {kvs pes : List (String × Json)} {prows : List ParamRow}
    (hp : getD kvs "paths" (Json.obj []) = Json.obj pes)
    (h : extract_parameters (Json.obj kvs) = Except.ok prows) :
    ∃ bs, mapE (fun q => opParamRows q.1 q.2.1 q.2.2.1 q.2.2.2) (docOps pes) =
      Except.ok bs ∧ prows = bs.flatten := by
  rw [extract_parameters_eq_spec] at h
  simp only [extract_parameters_spec, hp, pyItems] at h
  rw [exBindM_ok] at h
  obtain ⟨pes2, hpes2, h⟩ := h
  rw [Except.ok.injEq] at hpes2
  subst hpes2
  rw [exMap_ok] at h
  obtain ⟨bs, hbs, hfl⟩ := h
  exact ⟨bs, hbs, hfl.symm⟩

theorem extract_responses_blocks {kvs pes : List (String × Json)} {rrows : List RespRow}
    (hp : getD kvs "paths" (Json.obj []) = Json.obj pes)
    (h : extract_responses (Json.obj kvs) = Except.ok rrows) :
    ∃ bs, mapE (fun q => opRespRows q.1 q.2.2.1 q.2.2.2) (docOps pes) =
      Except.ok bs ∧ rrows = bs.flatten := by
  rw [extract_responses_eq_spec] at h
  simp only [extract_responses_spec, hp, pyItems] at h
  rw [exBindM_ok] at h
  obtain ⟨pes2, hpes2, h⟩ := h
  rw [Except.ok.injEq] at hpes2
  subst hpes2
  rw [exMap_ok] at h
  obtain ⟨bs, hbs, hfl⟩ := h
  exact ⟨bs, hbs, hfl.symm⟩

theorem per_op_count {sw : List (String × Json)} {path : String} {pp : Json} {m : String}
    {op : List (String × Json)} {r : EndpointRow} {rows : List ParamRow}
    (he : mkEndpointRow sw path pp m op = Except.ok r)
    (hp : opParamRows path pp m op = Except.ok rows) :
    r.parameters_count = rows.length := by
  obtain ⟨-, -, ⟨n1, n2, hn1, hn2, hc⟩, -, -, -⟩ := mkEndpointRow_ok he
  obtain ⟨-, pl, ol, hpl, hol, hlen⟩ := opParamRows_ok hp
  have h1 : n1 = ol.length := by
    have h := pyIter_len hol
    rw [hn1] at h
    simpa using h
  have h2 : n2 = pl.length := by
    have h := pyIter_len hpl
    rw [hn2] at h
    simpa using h
  omega

theorem erows_count_one (kvs : List (String × Json))
    (qs : List (String × Json × String × List (String × Json)))
    (erows : List EndpointRow)
    (h1 : mapE (fun q => mkEndpointRow kvs q.1 q.2.1 q.2.2.1 q.2.2.2) qs = Except.ok erows)
    (hnd : (qs.map (fun q => (q.1, (strUpper q.2.2.1)))).Nodup)
    (j : Nat) (hj : j < qs.length) :
    (erows.filter (fun r => decide ((r.path, r.method) =
      ((qs.get ⟨j, hj⟩).1, strUpper (qs.get ⟨j, hj⟩).2.2.1)))).length = 1 := by
  have hlen := mapE_ok_length h1
  have hj2 : j < (erows.map (fun r => [r])).length := by
    rw [List.length_map, hlen]
    exact hj
  have h1b := mapE_map_ok (g := fun r => [r]) h1
  have hkey : ∀ (q : String × Json × String × List (String × Json)) (b : List EndpointRow),
      ((fun q => mkEndpointRow kvs q.1 q.2.1 q.2.2.1 q.2.2.2) q).map (fun r => [r]) =
        Except.ok b →
      ∀ r ∈ b, (r.path, r.method) = (q.1, (strUpper q.2.2.1)) := by
    intro q b hb r hr
    rw [exMap_ok] at hb
    obtain ⟨r0, hr0, hb⟩ := hb
    subst hb
    rw [List.mem_singleton] at hr
    subst hr
    obtain ⟨hpp, hmm, -⟩ := mkEndpointRow_ok hr0
    rw [hpp, hmm]
  have hc := count_join (fun q => (q.1, (strUpper q.2.2.1))) (fun r => (r.path, r.method))
    (fun q => ((fun q => mkEndpointRow kvs q.1 q.2.1 q.2.2.1 q.2.2.2) q).map (fun r => [r]))
    qs (erows.map (fun r => [r])) h1b hkey hnd j hj hj2
  rw [flatten_singletons] at hc
  rw [hc]
  simp

theorem filter_key_congr {erows : List EndpointRow} {k : String × String} {p m : String}
    (hk : (p, m) = k) :
    erows.filter (fun r => decide (r.path = p ∧ r.method = m)) =
      erows.filter (fun r => decide ((r.path, r.method) = k)) := by
  apply List.filter_congr
  intro r _
  subst hk
  simp [Prod.ext_iff]

theorem filter_key_congr_param {prows : List ParamRow} {k : String × String} {p m : String}
    (hk : (p, m) = k) :
    prows.filter (fun r => decide (r.path = p ∧ r.method = m)) =
      prows.filter (fun r => decide ((r.path, r.method) = k)) := by
  apply List.filter_congr
  intro r _
  subst hk
  simp [Prod.ext_iff]

theorem pathLoopE_filter (sw : List (String × Json)) :
    ∀ pes, pathLoopE sw (pes.filter (fun e => e.2.isObj)) = pathLoopE sw pes := by
  intro pes
  induction pes with
  | nil => rfl
  | cons e rest ih =>
    obtain ⟨p, pitem⟩ := e
    cases pitem
    case obj pk =>
      rw [List.filter_cons_of_pos]
      · simp only [pathLoopE, ih]
      · rfl
    all_goals
      rw [List.filter_cons_of_neg]
      · rw [ih]
        simp only [pathLoopE]
      · simp [Json.isObj]

theorem pathLoopP_filter :
    ∀ pes, pathLoopP (pes.filter (fun e => e.2.isObj)) = pathLoopP pes := by
  intro pes
  induction pes with
  | nil => rfl
  | cons e rest ih =>
    obtain ⟨p, pitem⟩ := e
    cases pitem
    case obj pk =>
      rw [List.filter_cons_of_pos]
      · simp only [pathLoopP, ih]
      · rfl
    all_goals
      rw [List.filter_cons_of_neg]
      · rw [ih]
        simp only [pathLoopP]
      · simp [Json.isObj]

theorem pathLoopR_filter :
    ∀ pes, pathLoopR (pes.filter (fun e => e.2.isObj)) = pathLoopR pes := by
  intro pes
  induction pes with
  | nil => rfl
  | cons e rest ih =>
    obtain ⟨p, pitem⟩ := e
    cases pitem
    case obj pk =>
      rw [List.filter_cons_of_pos]
      · simp only [pathLoopR, ih]
      · rfl
    all_goals
      rw [List.filter_cons_of_neg]
      · rw [ih]
        simp only [pathLoopR]
      · simp [Json.isObj]

theorem opLoopE_filter (sw : List (String × Json)) (path : String) (pp : Json) :
    ∀ kvs, opLoopE sw path pp
      (kvs.filter (fun e => !(list_http_methods.contains (strLower e.1)) || e.2.isObj)) =
      opLoopE sw path pp kvs := by
  intro kvs
  induction kvs with
  | nil => rfl
  | cons e rest ih =>
    obtain ⟨m, op⟩ := e
    cases op
    case obj opkvs =>
      rw [List.filter_cons_of_pos]
      · simp only [opLoopE, ih]
      · simp [Json.isObj]
    all_goals
      by_cases hm : list_http_methods.contains (strLower m) = true
      · have hm2 : (strLower m) ∈ list_http_methods := by simpa using hm
        rw [List.filter_cons_of_neg]
        · rw [ih]
          simp only [opLoopE]
        · simp [Json.isObj, hm2]
      · simp only [Bool.not_eq_true] at hm
        have hm2 : ¬ (strLower m) ∈ list_http_methods := by simpa using hm
        rw [List.filter_cons_of_pos]
        · simp only [opLoopE]
          exact ih
        · simp [Json.isObj, hm2]

theorem respLoop_filter (ag : Option Json) (oid : Json) (method path : String) :
    ∀ res, respLoop ag oid method path (res.filter (fun e => e.2.isObj)) =
      respLoop ag oid method path res := by
  intro res
  induction res with
  | nil => rfl
  | cons e rest ih =>
    obtain ⟨code, resp⟩ := e
    cases resp
    case obj rk =>
      rw [List.filter_cons_of_pos]
      · simp only [respLoop, ih]
      · rfl
    all_goals
      rw [List.filter_cons_of_neg]
      · rw [ih]
        simp only [respLoop]
      · simp [Json.isObj]

theorem dedupGo_filter_form : ∀ (xs seen : List String),
    dedupGo xs seen = dedupFirst (xs.filter (fun y => !(decide (y ∈ seen)))) := by
  intro xs
  induction xs with
  | nil =>
    intro seen
    simp [dedupGo, dedupFirst]
  | cons x rest ih =>
    intro seen
    rw [List.filter_cons]
    by_cases h : x ∈ seen
    · rw [dedupGo]
      simp only [h, decide_True, List.elem_eq_mem, if_true, Bool.not_true,
        Bool.false_eq_true, if_false]
      exact ih seen
    · rw [dedupGo]
      simp only [h, decide_False, List.elem_eq_mem, Bool.false_eq_true, if_false,
        Bool.not_false, if_true]
      rw [dedupFirst]
      congr 1
      rw [ih (x :: seen)]
      rw [List.filter_filter]
      congr 1
      apply List.filter_congr
      intro y _
      by_cases hyx : y = x
      · simp [hyx, List.mem_cons]
      · by_cases hys : y ∈ seen
        · simp [hyx, hys, List.mem_cons, bne]
        · simp [hyx, hys, List.mem_cons, bne]

theorem dedupGo_eq_dedupFirst (xs : List String) : dedupGo xs [] = dedupFirst xs := by
  rw [dedupGo_filter_form]
  congr 1
  apply List.filter_eq_self.mpr
  intro b _
  rfl

theorem mem_dedupFirst (xs : List String) (a : String) : a ∈ dedupFirst xs ↔ a ∈ xs := by
  rw [← dedupGo_eq_dedupFirst, mem_dedupGo]
  simp

theorem openapi_rows_sorted_eq (spec : Json) :
    openapi_rows spec = (openapi_rows_unsorted spec).map sortRows := by
  cases spec with
  | obj kvs =>
    simp only [openapi_rows, openapi_rows_unsorted]
    cases h : pyItems (getD kvs "paths" (Json.obj [])) with
    | error e => simp [Bind.bind, Except.bind, Except.map, h]
    | ok pes =>
      cases h2 : csvPathLoop pes with
      | error e => simp [Bind.bind, Except.bind, Except.map, h, h2]
      | ok rows => simp [Bind.bind, Except.bind, Except.map, h, h2, pure, Except.pure]
  | null => rfl
  | bool b => rfl
  | num n => rfl
  | str s => rfl
  | arr xs => rfl

/-! ## The claims -/

/-- C1 (corrected): path items that are not mappings, operation slots that
are not mappings, and response values that are not mappings are skipped by
the extractors with no effect on any other row (each equality below says
that deleting the malformed units from the document leaves the extractor's
result unchanged).  The original claim fails for parameters, tags, security
definitions and models: a non-mapping unit there raises an exception and
aborts the extractor (see the counterexample). -/
theorem C1_malformed_units_skipped :
    (∀ (sw : List (String × Json)) (pes : List (String × Json)),
      pathLoopE sw pes = pathLoopE sw (pes.filter (fun e => e.2.isObj))) ∧
    (∀ (pkvs rest : List (String × Json)),
      extract_parameters (Json.obj (("paths", Json.obj pkvs) :: rest)) =
        extract_parameters (Json.obj (("paths",
          Json.obj (pkvs.filter (fun e => e.2.isObj))) :: rest))) ∧
    (∀ (pkvs rest : List (String × Json)),
      extract_responses (Json.obj (("paths", Json.obj pkvs) :: rest)) =
        extract_responses (Json.obj (("paths",
          Json.obj (pkvs.filter (fun e => e.2.isObj))) :: rest))) ∧
    (∀ (sw : List (String × Json)) (path : String) (pp : Json)
      (kvs : List (String × Json)),
      opLoopE sw path pp kvs = opLoopE sw path pp
        (kvs.filter (fun e => !(list_http_methods.contains (strLower e.1)) || e.2.isObj))) ∧
    (∀ (ag : Option Json) (oid : Json) (method path : String)
      (res : List (String × Json)),
      respLoop ag oid method path res =
        respLoop ag oid method path (res.filter (fun e => e.2.isObj))) := by
  refine ⟨?_, ?_, ?_, ?_, ?_⟩
  · intro sw pes
    exact (pathLoopE_filter sw pes).symm
  · intro pkvs rest
    simp only [extract_parameters, getD_cons_self, pyItems, Bind.bind, Except.bind]
    exact (pathLoopP_filter pkvs).symm
  · intro pkvs rest
    simp only [extract_responses, getD_cons_self, pyItems, Bind.bind, Except.bind]
    exact (pathLoopR_filter pkvs).symm
  · intro sw path pp kvs
    exact (opLoopE_filter sw path pp kvs).symm
  · intro ag oid method path res
    exact (respLoop_filter ag oid method path res).symm

/-- C1 counterexample: a parameter that is not a mapping aborts
`extract_parameters` with an AttributeError, and a tag that is not a mapping
aborts `extract_tags`, instead of being skipped as the claim states. -/
theorem C1_counterexample :
    extract_parameters docC1param = Except.error "AttributeError" ∧
    extract_tags docC1tag = Except.error "AttributeError" :=
⟨rfl, rfl⟩

/-- C3 (corrected): in the multi-table exporter the security cell of an
endpoints row is rendered from the operation-level `security` value alone
whenever the operation declares the key (a stored null included), and from
the document-level default exactly when the key is absent, never merged
(first conjunct); an explicit empty list renders as null (second conjunct).
In the single-CSV exporter, however, the document-level default is never
consulted at all: deleting a document-level `security` entry leaves every
row unchanged (third conjunct), and an operation that declares no security
key always gets an empty Auth cell (fourth conjunct) — so the original
claim's "equals the rendering of the document-level default" fails for that
exporter, see the counterexample. -/
theorem C3_security_override :
    (∀ (sw : List (String × Json)) (path : String) (pp : Json) (m : String)
      (op : List (String × Json)) (r : EndpointRow),
      mkEndpointRow sw path pp m op = Except.ok r →
      render_security (if hasKey op "security" then getD op "security" Json.null
        else getD sw "security" (Json.arr [])) = Except.ok r.security) ∧
    render_security (Json.arr []) = Except.ok none ∧
    (∀ (s : Json) (kvs : List (String × Json)),
      openapi_rows (Json.obj (("security", s) :: kvs)) =
        openapi_rows (Json.obj kvs)) ∧
    (∀ (path : String) (pp : List Json) (m : String)
      (op : List (String × Json)) (r : CsvRow),
      hasKey op "security" = false →
      mkCsvRow path pp m op = Except.ok r → r.auth = "") := by
  refine ⟨?_, rfl, ?_, ?_⟩
  · intro sw path pp m op r h
    obtain ⟨-, -, -, hsec, -, -⟩ := mkEndpointRow_ok h
    rw [getD_split op "security" (getD sw "security" (Json.arr []))] at hsec
    exact hsec
  · intro s kvs
    simp only [openapi_rows]
    rw [getD_cons_ne (show (("security" : String) == "paths") = false from rfl)]
  · intro path pp m op r hk h
    simp only [mkCsvRow, exBind_ok, exPure_ok] at h
    obtain ⟨pj, -, hr⟩ := h
    rw [← hr]
    simp only []
    rw [getD_hasKey_false hk]
    rfl

/-- C3 witness: a concrete operation with its own security requirement in
the multi-table exporter, and a concrete key-less operation whose single-CSV
row has an empty Auth cell. -/
theorem C3_witness :
    (render_security (if hasKey opC3w "security" then getD opC3w "security" Json.null
      else getD swC3w "security" (Json.arr [])) = Except.ok rowC3w.security) ∧
    rowC3csvw.auth = "" :=
⟨C3_security_override.1 swC3w "/p" (Json.arr []) "get" opC3w rowC3w rfl,
 C3_security_override.2.2.2 "/p" [] "get" opC3ce rowC3csvw rfl rfl⟩

/-- C3 counterexample: in the single-CSV exporter the operation that
declares no security key renders an empty Auth cell even though the document
declares a truthy default security requirement whose rendering is non-empty
— the cell does not equal the rendering of the document-level default, as
the original claim states. -/
theorem C3_counterexample :
    (openapi_rows (Json.obj swC3ce)).map (fun rows => rows.map (fun r => r.auth)) =
      Except.ok [""] ∧
    hasKey opC3ce "security" = false ∧
    (getD swC3ce "security" Json.null).truthy = true ∧
    (if (getD swC3ce "security" Json.null).truthy
      then pyDumps (getD swC3ce "security" Json.null) else "") ≠ "" := by
  exact ⟨rfl, rfl, rfl, by decide⟩

/-- C5 (corrected): the seven extractors of the multi-table exporter emit
rows in document order, each equal to its declarative document-order form;
the single-CSV exporter, however, sorts its rows by (tags rendering, path,
upper-cased method) before writing (last conjunct), so its relation is not
in document order — see the counterexample. -/
theorem C5_document_order :
    (∀ sw : Json, extract_endpoints sw = extract_endpoints_spec sw) ∧
    (∀ sw : Json, extract_parameters sw = extract_parameters_spec sw) ∧
    (∀ sw : Json, extract_responses sw = extract_responses_spec sw) ∧
    (∀ sw : Json, extract_tags sw = extract_tags_spec sw) ∧
    (∀ sw : Json, extract_securities sw = extract_securities_spec sw) ∧
    (∀ sw : Json, extract_models_and_properties sw = extract_models_spec sw) ∧
    (∀ spec : Json, openapi_rows spec = (openapi_rows_unsorted spec).map sortRows) :=
⟨extract_endpoints_eq_spec, extract_parameters_eq_spec, extract_responses_eq_spec,
 extract_tags_eq_spec, extract_securities_eq_spec, extract_models_eq_spec,
 openapi_rows_sorted_eq⟩

/-- C5 counterexample: the single-CSV exporter reorders rows.  The document
declares /b before /a, the emitted rows list /a before /b. -/
theorem C5_counterexample :
    pathsC5.map Prod.fst = ["/b", "/a"] ∧
    (openapi_rows docC5sort).map (fun rows => rows.map (fun r => r.path)) =
      Except.ok ["/a", "/b"] :=
⟨rfl, rfl⟩

/-- C7: merging a parameter list with itself yields the same result as
merging it with the empty list, and the de-duplication loop of
`collect_params` is idempotent. -/
theorem C7_merge_idempotent :
    (∀ L : Json, collect_params L L = collect_params L (Json.arr [])) ∧
    (∀ xs : List String, dedup_loop (dedup_loop xs [] []) [] [] = dedup_loop xs [] []) := by
  constructor
  · intro L
    unfold collect_params
    congr 1
    unfold collect_params_list iter_or_nil
    by_cases hL : L.truthy = true
    · simp only [hL, if_true, show (Json.arr []).truthy = false from rfl,
        Bool.false_eq_true, if_false]
      cases hit : pyIter L with
      | error e => simp [Bind.bind, Except.bind, hit, pure, Except.pure]
      | ok xs =>
        simp only [Bind.bind, Except.bind, hit, pure, Except.pure]
        congr 1
        rw [dedup_loop_eq_go, dedup_loop_eq_go, dedupGo_self_append]
        simp [renderColl]
    · simp only [Bool.not_eq_true] at hL
      simp [hL, show (Json.arr []).truthy = false from rfl]
  · intro xs
    have h1 : dedup_loop xs [] [] = dedupGo xs [] := by
      rw [dedup_loop_eq_go]
      simp
    rw [h1]
    have h2 : dedup_loop (dedupGo xs []) [] [] = dedupGo (dedupGo xs []) [] := by
      rw [dedup_loop_eq_go]
      simp
    rw [h2, dedupGo_idem]

/-- C9: extraction is deterministic — the six extractor calls of
`export_tables` form a pure function of the parsed document, so two runs on
the identical document tree produce identical relations; the embedding has
no source of nondeterminism because the code iterates dictionaries only in
insertion order and uses its one set only for membership tests. -/
theorem C9_deterministic : ∀ sw : Json, extractAllTables sw = extractAllTables sw :=
fun _ => rfl

/-- C6 (corrected): the URL synthesizer returns null whenever `host` is
falsy — absent, null, or present but empty, which is what the
counterexample exhibits — and builds scheme://host + basePath + path
otherwise (first declared scheme, "https" when none); full_url_template is
null for every endpoints row of a document without a host key. -/
theorem C6_url_template :
    (∀ (schemes host base_path : Json) (path : String), host.truthy = false →
      build_full_url_template schemes host base_path path = Except.ok none) ∧
    (∀ (ss : List Json) (h : String) (base_path : Json) (path : String), h ≠ "" →
      build_full_url_template (Json.arr ss) (Json.str h) base_path path =
        Except.ok (some ((match ss with
          | [] => "https"
          | s0 :: _ => pyStr s0) ++ "://" ++ h ++
          pyStr (pyOr base_path (Json.str "")) ++ path))) ∧
    (∀ (kvs : List (String × Json)) (rows : List EndpointRow),
      hasKey kvs "host" = false →
      extract_endpoints (Json.obj kvs) = Except.ok rows →
      rows.all (fun r => r.full_url_template == none) = true) := by
  refine ⟨?_, ?_, ?_⟩
  · intro schemes host base_path path h
    simp [build_full_url_template, h]
  · intro ss h base_path path hne
    have ht : (Json.str h).truthy = true := by simp [Json.truthy, hne]
    cases ss with
    | nil =>
      simp [build_full_url_template, ht, Json.truthy, Bind.bind, Except.bind,
        pure, Except.pure, pyStr, hne]
    | cons s0 srest =>
      simp [build_full_url_template, ht, Json.truthy, pyIndex0, Bind.bind,
        Except.bind, pure, Except.pure, pyStr, hne]
  · intro kvs rows hh hex
    have hex0 := hex
    rw [extract_endpoints] at hex0
    rw [exBind_ok] at hex0
    obtain ⟨pes0, hpes0, -⟩ := hex0
    have hp : getD kvs "paths" (Json.obj []) = Json.obj pes0 := by
      cases hx : getD kvs "paths" (Json.obj []) <;> rw [hx] at hpes0 <;>
        simp [pyItems] at hpes0
      rw [hpes0]
    have hmap := extract_endpoints_mapE hp hex
    apply List.all_eq_true.mpr
    intro r hr
    obtain ⟨q, -, hq⟩ := mapE_ok_mem hmap r hr
    obtain ⟨-, -, -, -, hfu, -⟩ := mkEndpointRow_ok hq
    rw [getD_hasKey_false hh] at hfu
    have : build_full_url_template (getD kvs "schemes" (Json.arr [])) Json.null
        (getD kvs "basePath" Json.null) q.1 = Except.ok none := by
      simp [build_full_url_template, Json.truthy]
    rw [this] at hfu
    have hn : r.full_url_template = none := by
      have := hfu
      simp only [Except.ok.injEq] at this
      exact this.symm
    simp [hn]

/-- C6 witness: a document with schemes and basePath but no host yields a
null full_url_template on its one row. -/
theorem C6_witness :
    (((extract_endpoints (Json.obj kvsC6w)).toOption.getD []).all
      (fun r => r.full_url_template == none)) = true :=
C6_url_template.2.2 kvsC6w ((extract_endpoints (Json.obj kvsC6w)).toOption.getD [])
  rfl rfl

/-- C6 counterexample: with `host` present but equal to the empty string the
synthesizer returns null, not the concatenation the claim's "otherwise"
branch prescribes. -/
theorem C6_counterexample :
    build_full_url_template (Json.arr []) (Json.str "") Json.null "/p" =
      Except.ok none ∧
    Json.str "" ≠ Json.null ∧
    (Except.ok none : Except String (Option String)) ≠ Except.ok (some "https:///p") := by
  refine ⟨rfl, ?_, ?_⟩
  · intro h
    exact Json.noConfusion h
  · intro h
    simp at h

/-- C8 (corrected): api_group is the first element of the operation's tags
value when that value is truthy (a non-empty list in particular), and null
when the tags value is falsy; the claim's "never the empty string" fails,
because a first tag equal to `""` is passed through unchanged — see the
counterexample. -/
theorem C8_api_group (sw : List (String × Json)) (path : String) (pp : Json)
    (m : String) (op : List (String × Json)) (r : EndpointRow)
    (h : mkEndpointRow sw path pp m op = Except.ok r) :
    ((getD op "tags" (Json.arr [])).truthy = false → r.api_group = none) ∧
    (∀ (t : Json) (ts : List Json), getD op "tags" (Json.arr []) = Json.arr (t :: ts) →
      r.api_group = some t) := by
  obtain ⟨-, -, -, -, -, hag⟩ := mkEndpointRow_ok h
  constructor
  · intro ht
    rw [api_group_of, ht] at hag
    simp only [Bool.false_eq_true, if_false, exPure_ok] at hag
    exact hag.symm
  · intro t ts hts
    rw [api_group_of, hts] at hag
    simp only [Json.truthy, List.isEmpty_cons, Bool.not_false, if_true, pyIndex0,
      Except.map, Except.ok.injEq] at hag
    exact hag.symm

/-- C8 witness: an operation tagged "Pets" gets api_group "Pets". -/
theorem C8_witness : rowC8w.api_group = some (Json.str "Pets") :=
(C8_api_group [] "/p" (Json.arr []) "get" opC8w rowC8w rfl).2 (Json.str "Pets") [] rfl

/-- C8 counterexample: a document whose operation declares `tags = [""]`
produces an endpoints row whose api_group is the empty string, refuting
"api_group is never the empty string". -/
theorem C8_counterexample :
    (extract_endpoints docC8empty).map (fun rows => rows.map (fun r => r.api_group)) =
      Except.ok [some (Json.str "")] :=
rfl

/-- C4 (corrected): the merger renders path-level parameters first, then
operation-level ones, in declared order, and de-duplicates the rendered
descriptions keeping the first occurrence (`dedupFirst`); every rendered
description survives into the result, so two parameters are both retained
exactly when their renderings differ.  The claim's stronger statement that
same-name different-location parameters are always both retained fails:
contrived location/type strings can render identically and collapse — see
the counterexample. -/
theorem C4_merge_order_dedup :
    ∀ (op pl : Json) (c1 c2 : List Json) (l : List String),
    iter_or_nil pl = Except.ok c1 →
    iter_or_nil op = Except.ok c2 →
    collect_params_list op pl = Except.ok l →
    l = dedupFirst (renderColl c1 ++ renderColl c2) ∧
    (renderColl c1 ++ renderColl c2).all (fun x => l.contains x) = true := by
  intro op pl c1 c2 l h1 h2 h
  unfold collect_params_list at h
  simp only [exBind_ok, exPure_ok] at h
  obtain ⟨a1, ha1, a2, ha2, hl⟩ := h
  rw [h1] at ha1
  rw [h2] at ha2
  rw [Except.ok.injEq] at ha1 ha2
  subst ha1
  subst ha2
  have hgo : l = dedupGo (renderColl c1 ++ renderColl c2) [] := by
    rw [← hl, dedup_loop_eq_go]
    simp
  constructor
  · rw [hgo, dedupGo_eq_dedupFirst]
  · apply List.all_eq_true.mpr
    intro x hx
    have : x ∈ l := by
      rw [hgo, mem_dedupGo]
      exact ⟨hx, by simp⟩
    simpa using this

/-- C4 witness: one path-level and one operation-level parameter with
distinct renderings are both retained, path side first. -/
theorem C4_witness :
    ["id (path)* : string", "q (query) : string"] =
      dedupFirst (renderColl [paramId] ++ renderColl [paramQ]) ∧
    (renderColl [paramId] ++ renderColl [paramQ]).all
      (fun x => ["id (path)* : string", "q (query) : string"].contains x) = true :=
C4_merge_order_dedup (Json.arr [paramQ]) (Json.arr [paramId]) [paramId] [paramQ]
  ["id (path)* : string", "q (query) : string"] rfl rfl rfl

/-- C4 counterexample: two parameters with the same name and different
locations whose rendered descriptions coincide; the merger collapses them
to one entry. -/
theorem C4_counterexample :
    collect_params_list (Json.arr [Json.obj pk4a, Json.obj pk4b]) (Json.arr []) =
      Except.ok ["n (q) : x)"] ∧
    getD pk4a "name" Json.null = Json.str "n" ∧
    getD pk4b "name" Json.null = Json.str "n" ∧
    getD pk4a "in" Json.null = Json.str "q" ∧
    getD pk4b "in" Json.null = Json.str "q) : x" ∧
    ("q" : String) ≠ "q) : x" := by
  refine ⟨rfl, rfl, rfl, rfl, rfl, ?_⟩
  intro h
  simp at h

/-- C2 (corrected): for every operation of a well-keyed document (path keys
distinct, admitted method keys distinct up to case), the row's
`parameters_count` equals the number of rows `extract_parameters` emits for
that exact (path, method) pair — with NO de-duplication: the count is
`len(op parameters) + len(path-level parameters)`.  The original claim's
"counted after de-duplication by the Parameter Merger" fails (the merger
lives in the other script and its de-duplication is not reflected in the
count), and without the case-distinctness hypothesis rows of `get`/`GET`
operations pool — both shown in the counterexample. -/
theorem C2_parameters_count (sw : Json) (erows : List EndpointRow)
    (prows : List ParamRow)
    (h1 : extract_endpoints sw = Except.ok erows)
    (h2 : extract_parameters sw = Except.ok prows)
    (hk : methodKeysOk sw = true) :
    erows.map (fun r => r.parameters_count) =
      erows.map (fun r => (prows.filter
        (fun pr => decide (pr.path = r.path ∧ pr.method = r.method))).length) := by
  obtain ⟨kvs, rfl⟩ := methodKeysOk_shape hk
  obtain ⟨pes, hp, hnd1, hnd2⟩ := methodKeysOk_obj hk
  have hape := extract_endpoints_mapE hp h1
  obtain ⟨bs, hbs, hflat⟩ := extract_parameters_blocks hp h2
  subst hflat
  have hnd := docOps_keys_nodup pes hnd1 hnd2
  have hle : erows.length = (docOps pes).length := mapE_ok_length hape
  have hlb : bs.length = (docOps pes).length := mapE_ok_length hbs
  apply List.ext_get
  · simp
  · intro i hi1 hi2
    rw [List.get_map, List.get_map]
    simp only [Fin.val_mk]
    have hie : i < erows.length := by simpa using hi1
    have hid : i < (docOps pes).length := by rw [← hle]; exact hie
    have hib : i < bs.length := by rw [hlb]; exact hid
    have hfe := mapE_ok_get hape i hid hie
    have hfg := mapE_ok_get hbs i hid hib
    obtain ⟨hpth, hmth, -⟩ := mkEndpointRow_ok hfe
    have hkk : ((erows.get ⟨i, hie⟩).path, (erows.get ⟨i, hie⟩).method) =
        (((docOps pes).get ⟨i, hid⟩).1,
          strUpper ((docOps pes).get ⟨i, hid⟩).2.2.1) := by
      rw [hpth, hmth]
    rw [filter_key_congr_param hkk]
    have hcount := count_join (fun q => (q.1, strUpper q.2.2.1))
      (fun r : ParamRow => (r.path, r.method))
      (fun q => opParamRows q.1 q.2.1 q.2.2.1 q.2.2.2) (docOps pes) bs hbs
      (fun q b hb r hr => by
        obtain ⟨hkeys, -⟩ := opParamRows_ok hb
        obtain ⟨hp2, hm2⟩ := hkeys r hr
        show (r.path, r.method) = (q.1, strUpper q.2.2.1)
        rw [hp2, hm2]) hnd i hid hib
    rw [hcount]
    exact per_op_count hfe hfg

/-- C2 witness: a document with one path-level and one operation-level
parameter; the row's parameters_count (2) equals the number of parameter
rows at its (path, method) pair. -/
theorem C2_witness :
    ((extract_endpoints docC2w).toOption.getD []).map (fun r => r.parameters_count) =
      ((extract_endpoints docC2w).toOption.getD []).map (fun r =>
        (((extract_parameters docC2w).toOption.getD []).filter
          (fun pr => decide (pr.path = r.path ∧ pr.method = r.method))).length) :=
C2_parameters_count docC2w ((extract_endpoints docC2w).toOption.getD [])
  ((extract_parameters docC2w).toOption.getD []) rfl rfl rfl

/-- C2 counterexample: (a) a duplicated parameter makes parameters_count 2
while the Parameter Merger de-duplicates the merged list to a single entry;
(b) with case-variant method keys `get`/`GET`, the rows of both operations
carry the same (path, method) pair, so the per-pair row count (3) matches
neither operation's parameters_count (1 and 2). -/
theorem C2_counterexample :
    (extract_endpoints docC2dup).map (fun rows => rows.map (fun r => r.parameters_count)) =
      Except.ok [2] ∧
    (extract_parameters docC2dup).map (fun rows => (rows.filter
      (fun pr => decide (pr.path = "/a" ∧ pr.method = "GET"))).length) = Except.ok 2 ∧
    collect_params_list (Json.arr [paramId]) (Json.arr [paramId]) =
      Except.ok ["id (path)* : string"] ∧
    (2 : Nat) ≠ 1 ∧
    (extract_endpoints docC2case).map (fun rows => rows.map (fun r => r.parameters_count)) =
      Except.ok [1, 2] ∧
    (extract_parameters docC2case).map (fun rows => (rows.filter
      (fun pr => decide (pr.path = "/a" ∧ pr.method = "GET"))).length) = Except.ok 3 := by
  refine ⟨rfl, rfl, rfl, by decide, rfl, rfl⟩

/-- C10 (corrected): in a well-keyed document (path keys distinct, admitted
method keys distinct up to case) every parameter row and every response row
refers to exactly one endpoints row with the same (path, method) pair,
because the three extractors admit operations under the identical
predicate.  Without the case-distinctness hypothesis "exactly one" fails:
`get`/`GET` under one path produce two endpoints rows with the same pair —
see the counterexample. -/
theorem C10_referential_integrity (sw : Json) (erows : List EndpointRow)
    (prows : List ParamRow) (rrows : List RespRow)
    (h1 : extract_endpoints sw = Except.ok erows)
    (h2 : extract_parameters sw = Except.ok prows)
    (h3 : extract_responses sw = Except.ok rrows)
    (hk : methodKeysOk sw = true) :
    (prows.all (fun pr => (erows.filter
      (fun r => decide (r.path = pr.path ∧ r.method = pr.method))).length == 1)) = true ∧
    (rrows.all (fun rr => (erows.filter
      (fun r => decide (r.path = rr.path ∧ r.method = rr.method))).length == 1)) = true := by
  obtain ⟨kvs, rfl⟩ := methodKeysOk_shape hk
  obtain ⟨pes, hp, hnd1, hnd2⟩ := methodKeysOk_obj hk
  have hape := extract_endpoints_mapE hp h1
  have hnd := docOps_keys_nodup pes hnd1 hnd2
  constructor
  · apply List.all_eq_true.mpr
    intro pr hpr
    obtain ⟨bs, hbs, hflat⟩ := extract_parameters_blocks hp h2
    subst hflat
    obtain ⟨b, hb, hprb⟩ := List.mem_flatten.mp hpr
    obtain ⟨⟨j, hj⟩, hbj⟩ := List.mem_iff_get.mp hb
    have hjd : j < (docOps pes).length := by rw [← mapE_ok_length hbs]; exact hj
    have hgq := mapE_ok_get hbs j hjd hj
    rw [hbj] at hgq
    obtain ⟨hkeys, -⟩ := opParamRows_ok hgq
    obtain ⟨hp2, hm2⟩ := hkeys pr hprb
    have hone := erows_count_one kvs (docOps pes) erows hape hnd j hjd
    have hkk : (pr.path, pr.method) =
        (((docOps pes).get ⟨j, hjd⟩).1, strUpper ((docOps pes).get ⟨j, hjd⟩).2.2.1) := by
      rw [hp2, hm2]
    rw [filter_key_congr hkk, hone]
    rfl
  · apply List.all_eq_true.mpr
    intro rr hrr
    obtain ⟨bs, hbs, hflat⟩ := extract_responses_blocks hp h3
    subst hflat
    obtain ⟨b, hb, hrrb⟩ := List.mem_flatten.mp hrr
    obtain ⟨⟨j, hj⟩, hbj⟩ := List.mem_iff_get.mp hb
    have hjd : j < (docOps pes).length := by rw [← mapE_ok_length hbs]; exact hj
    have hgq := mapE_ok_get hbs j hjd hj
    rw [hbj] at hgq
    have hkeys := opRespRows_ok_keys hgq
    obtain ⟨hp2, hm2⟩ := hkeys rr hrrb
    have hone := erows_count_one kvs (docOps pes) erows hape hnd j hjd
    have hkk : (rr.path, rr.method) =
        (((docOps pes).get ⟨j, hjd⟩).1, strUpper ((docOps pes).get ⟨j, hjd⟩).2.2.1) := by
      rw [hp2, hm2]
    rw [filter_key_congr hkk, hone]
    rfl

/-- C10 witness: a one-operation document with one parameter and one
response; each refers to exactly one endpoints row. -/
theorem C10_witness :
    (((extract_parameters docC10w).toOption.getD []).all (fun pr =>
      ((((extract_endpoints docC10w).toOption.getD []).filter
        (fun r => decide (r.path = pr.path ∧ r.method = pr.method))).length == 1))) = true ∧
    (((extract_responses docC10w).toOption.getD []).all (fun rr =>
      ((((extract_endpoints docC10w).toOption.getD []).filter
        (fun r => decide (r.path = rr.path ∧ r.method = rr.method))).length == 1))) = true :=
C10_referential_integrity docC10w ((extract_endpoints docC10w).toOption.getD [])
  ((extract_parameters docC10w).toOption.getD [])
  ((extract_responses docC10w).toOption.getD []) rfl rfl rfl rfl

/-- C10 counterexample: with `get` and `GET` declared under the same path,
the parameter row of the `get` operation matches two endpoints rows with
its (path, method) pair, so "exactly one" fails. -/
theorem C10_counterexample :
    (extract_parameters docC10case).map
      (fun rows => rows.map (fun pr => (pr.path, pr.method))) =
      Except.ok [("/a", "GET")] ∧
    (extract_endpoints docC10case).map (fun rows => (rows.filter
      (fun r => decide (r.path = "/a" ∧ r.method = "GET"))).length) = Except.ok 2 ∧
    (2 : Nat) ≠ 1 := by
  refine ⟨rfl, rfl, by decide⟩
